import Mathlib

/-!
# Verification of the abacus training-example generator

Shallow embedding of the core of the Abacus-Training-Example-Generator
repository: the four pedagogical rules (`UnifiedSimpleRule`, `BrothersRule`,
`FriendsRule`, `MixRule`), the `ExampleGenerator` search loop, the
`MultiDigitGenerator` wrapper, the `generateExample` dispatcher from
`core/generator.js` and the `PrintGenerator` batch front end.

States and actions are integers (`Int`), exactly as in the JavaScript
source.  All the randomness of the source (`Math.random()` draws) is made
explicit: every random decision is an input, so the generators become
deterministic functions of those inputs, and "the generator can return e"
becomes an existential statement over the inputs.
-/

namespace Abacus

/-- One exercise step, as produced by the generators:
`{ action, fromState, toState }`. -/
structure Step where
  action : Int
  fromState : Int
  toState : Int
deriving DecidableEq, Repr

/-- One exercise: `{ start, steps, answer }`. -/
structure Example where
  start : Int
  steps : List Step
  answer : Int
deriving DecidableEq, Repr

/-- Sum of the `action` fields of a list of steps. -/
def sumActions (steps : List Step) : Int :=
  (steps.map Step.action).sum

/-- One micro-step of a pedagogical decomposition (`decomposeAction`
output element); the source also carries a human-readable `description`,
irrelevant to any claim and omitted. -/
structure MicroStep where
  action : Int
  type : String
deriving DecidableEq, Repr

/-- Sum of the actions of a decomposition. -/
def microSum (l : List MicroStep) : Int :=
  (l.map MicroStep.action).sum

/-- The actions of a decomposition, in order. -/
def microActions (l : List MicroStep) : List Int :=
  l.map MicroStep.action

/-- JavaScript remainder `a % b` (sign of the dividend). -/
def jsMod (a b : Int) : Int := Int.tmod a b

/-- JavaScript `Math.floor(a / b)` (floor division). -/
def jsFloorDiv (a b : Int) : Int := Int.fdiv a b

/-- Returns `[a]` if the guard holds, else `[]`: models a guarded `actions.push(a)`. -/
def pushIf {α : Type} (c : Bool) (a : α) : List α :=
  if c then [a] else []

/-- Upper-bead indicator of a column state (`state >= 5 ? 1 : 0`). -/
def upperOf (state : Int) : Int := if 5 ≤ state then 1 else 0

/-- Active lower beads of a column state (`state >= 5 ? state - 5 : state`). -/
def lowerOf (state : Int) : Int := if 5 ≤ state then state - 5 else state

/-- Intermediate-state bounds re-simulation used by the validators: walks the
steps from `s`, failing as soon as a state leaves `[lo, hi]`. -/
def statesWithin (lo hi : Int) : Int → List Step → Bool
  | _, [] => true
  | s, st :: rest =>
    let s2 := s + st.action
    if s2 < lo || hi < s2 then false
    else statesWithin lo hi s2 rest

/-- The "has at least one signature step" scan shared by the Brothers,
Friends and Mix validators: walks the running state from `start` and looks
for a step whose transition the classifier accepts (the source breaks out

of the loop at the first hit, which is what the recursion does). -/
def hasSigStep (isSig : Int → Int → Bool) : Int → List Step → Bool
  | _, [] => false
  | s, st :: rest =>
    if isSig s (s + st.action) then true
    else hasSigStep isSig (s + st.action) rest

/-- Models `BaseRule.validateExample` (core/rules/BaseRule.js): non-empty steps,
re-summed answer, `onlyAddition`/`onlySubtraction` flags, and — only when
`digitCount == 1` — the intermediate-state bounds check.  The early-return
chain of the source is rendered as a conjunction in the same order. -/
def baseValidate (minState maxState : Int) (onlyAddition onlySubtraction : Bool)
    (digitCount : Nat) (ex : Example) : Bool :=
  !ex.steps.isEmpty &&
  (ex.steps.foldl (fun s st => s + st.action) ex.start == ex.answer) &&
  !(onlyAddition && ex.steps.any (fun st => st.action < 0)) &&
  !(onlySubtraction && ex.steps.any (fun st => st.action > 0)) &&
  (decide (1 < digitCount) || statesWithin minState maxState ex.start ex.steps)

/-! ## UnifiedSimpleRule (core/rules/UnifiedSimpleRule.js) -/

/-- Resolved configuration of a `UnifiedSimpleRule` instance. -/
structure SimpleCfg where
  selectedDigits : List Int
  includeFive : Bool
  minState : Int
  maxState : Int
  minSteps : Nat
  maxSteps : Nat
  onlyAddition : Bool
  onlySubtraction : Bool
  digitCount : Nat
  combineLevels : Bool
deriving Repr

/-- Models `UnifiedSimpleRule` constructor: filters the selected digits to `[1,9]`,
derives `includeFive` from the digits (or the explicit flag) and sets
`maxState` to 9 or 4 accordingly. -/
def mkSimpleCfg (rawDigits : List Int) (includeFiveIn : Bool)
    (minSteps maxSteps : Nat) (onlyAddition onlySubtraction : Bool)
    (digitCount : Nat) (combineLevels : Bool) : SimpleCfg :=
  let selectedDigits := rawDigits.filter (fun n => 1 ≤ n && n ≤ 9)
  let includeFive := selectedDigits.any (fun d => 5 ≤ d) || includeFiveIn
  let maxState : Int := if includeFive then 9 else 4
  ⟨selectedDigits, includeFive, 0, maxState, minSteps, maxSteps,
   onlyAddition, onlySubtraction, digitCount, combineLevels⟩

/-- Models `UnifiedSimpleRule.getAvailableActions`. -/
def getAvailableActionsSimple (cfg : SimpleCfg) (state : Int) (isFirst : Bool) :
    List Int :=
  if isFirst && !cfg.onlySubtraction then
    cfg.selectedDigits.flatMap (fun d =>
      pushIf (0 ≤ state + d && state + d ≤ cfg.maxState) d)
  else if state == 0 && !cfg.onlySubtraction then
    cfg.selectedDigits.flatMap (fun d => pushIf (d ≤ cfg.maxState) d)
  else
    (if !cfg.onlySubtraction then
      cfg.selectedDigits.flatMap (fun d =>
        pushIf (0 ≤ state + d && state + d ≤ cfg.maxState) d)
     else []) ++
    (if !cfg.onlyAddition then
      cfg.selectedDigits.flatMap (fun d =>
        pushIf (0 ≤ state - d && state - d ≤ cfg.maxState) (-d))
     else [])

/-- Models `UnifiedSimpleRule.isPhysicallyPossible`: bead-level feasibility of one
action from one state. -/
def isPhysicallyPossible (cfg : SimpleCfg) (state action : Int) : Bool :=
  let newState := state + action
  if newState < 0 || cfg.maxState < newState then false
  else
    let upperActive := upperOf state
    let lowerActive := lowerOf state
    let newUpperActive := upperOf newState
    let newLowerActive := lowerOf newState
    if 0 < action then
      let needUpper := newUpperActive - upperActive
      let needLower := newLowerActive - lowerActive
      if 0 < needUpper && upperActive == 1 then false
      else if 0 < needLower && 4 < lowerActive + needLower then false
      else if needLower < 0 && lowerActive + needLower < 0 then false
      else true
    else
      let needUpper := upperActive - newUpperActive
      let needLower := lowerActive - newLowerActive
      if 0 < needUpper && upperActive == 0 then false
      else if 0 < needLower && lowerActive < needLower then false
      else if needLower < 0 && 4 < lowerActive - needLower then false
      else true

/-- The per-step physical-possibility re-simulation of
`UnifiedSimpleRule.validateExample`. -/
def physicalChainOk (cfg : SimpleCfg) : Int → List Step → Bool
  | _, [] => true
  | s, st :: rest =>
    if !isPhysicallyPossible cfg s st.action then false
    else physicalChainOk cfg (s + st.action) rest

/-- Models `UnifiedSimpleRule.validateExample`: the `BaseRule` validation plus the
physical-possibility check of every step. -/
def validateSimple (cfg : SimpleCfg) (ex : Example) : Bool :=
  baseValidate cfg.minState cfg.maxState cfg.onlyAddition cfg.onlySubtraction
      cfg.digitCount ex &&
  physicalChainOk cfg ex.start ex.steps

/-! ## BrothersRule (core/rules/BrothersRule.js) -/

/-- Resolved configuration of a `BrothersRule` instance.  `selectedDigits`
keeps the raw input value (preserved in `this.config` by the constructor
spread and read by `MultiDigitGenerator`). -/
structure BrothersCfg where
  selectedDigits : List Int
  brothersDigits : List Int
  simpleBlockDigits : List Int
  minState : Int
  maxState : Int
  minSteps : Nat
  maxSteps : Nat
  onlyAddition : Bool
  onlySubtraction : Bool
  digitCount : Nat
  combineLevels : Bool
deriving Repr

/-- Models `BrothersRule` constructor: brothers digits filtered to `[1,4]`, helper
"simple block" digits filtered to `[1,9]` (defaulting to `[1..5]` when the
simple block is absent). -/
def mkBrothersCfg (rawDigits : List Int) (simpleBlock : Option (List Int))
    (minSteps maxSteps : Nat) (onlyAddition onlySubtraction : Bool)
    (digitCount : Nat) (combineLevels : Bool) : BrothersCfg :=
  let brothersDigits := rawDigits.filter (fun n => 1 ≤ n && n ≤ 4)
  let simpleBlockDigits :=
    match simpleBlock with
    | some ds => ds.filter (fun n => 1 ≤ n && n ≤ 9)
    | none => [1, 2, 3, 4, 5]
  ⟨rawDigits, brothersDigits, simpleBlockDigits, 0, 9, minSteps, maxSteps,
   onlyAddition, onlySubtraction, digitCount, combineLevels⟩

/-- Models `getBrother`: complement to 5. -/
def getBrother (n : Int) : Int := 5 - n

/-- Models `BrothersRule._buildBrotherPairs`: enumerates `v ∈ [0,9]` per selected
digit and records the `(from, to, digit)` transitions the rule treats as
"brother" ones (the source stores string keys in a `Set`; on this domain
the keys are in bijection with the triples). -/
def brotherPairs (digits : List Int) : List (Int × Int × Int) :=
  digits.flatMap (fun n =>
    let brother := getBrother n
    ((List.range 10).flatMap (fun v0 =>
      let v : Int := v0
      let vNext := v + n
      pushIf (0 ≤ vNext && vNext ≤ 9 &&
        upperOf v == 0 && brother ≤ lowerOf v + 5) (v, vNext, n))) ++
    ((List.range 10).flatMap (fun v0 =>
      let v : Int := v0
      let vNext := v - n
      pushIf (0 ≤ vNext && vNext ≤ 9 &&
        upperOf v == 1 && 0 ≤ lowerOf v - 5 + brother &&
        lowerOf v - 5 + brother ≤ 4) (v, vNext, n))))

/-- Models `BrothersRule._isBrotherTransition`: looks the `|to - from|` delta up
among the selected digits (first match, as the source loop returns on it)
and then queries the precomputed pair table. -/
def isBrotherTransition (cfg : BrothersCfg) (fromS toS : Int) : Bool :=
  let delta := |toS - fromS|
  match cfg.brothersDigits.find? (fun n => delta == n) with
  | some n => (brotherPairs cfg.brothersDigits).contains (fromS, toS, n)
  | none => false

/-- Models `BrothersRule.getAvailableActions`; the brother actions are replicated
`Math.floor(brotherPriority * 10) = 5` times. -/
def getAvailableActionsBrothers (cfg : BrothersCfg) (state : Int)
    (isFirst : Bool) : List Int :=
  let times := 5
  if isFirst && !cfg.onlySubtraction then
    (cfg.simpleBlockDigits.flatMap (fun d =>
      pushIf (0 ≤ state + d && state + d ≤ 9) d)) ++
    (cfg.brothersDigits.flatMap (fun d =>
      if 0 ≤ state + d && state + d ≤ 9 &&
          isBrotherTransition cfg state (state + d) then
        List.replicate times d
      else []))
  else if state == 0 && !cfg.onlySubtraction then
    (cfg.simpleBlockDigits.flatMap (fun d => pushIf (d ≤ 9) d)) ++
    (cfg.brothersDigits.flatMap (fun d =>
      if state + d ≤ 9 && isBrotherTransition cfg state (state + d) then
        List.replicate times d
      else []))
  else
    (if !cfg.onlySubtraction then
      (cfg.simpleBlockDigits.flatMap (fun d =>
        pushIf (0 ≤ state + d && state + d ≤ 9) d)) ++
      (cfg.brothersDigits.flatMap (fun d =>
        if 0 ≤ state + d && state + d ≤ 9 &&
            isBrotherTransition cfg state (state + d) then
          List.replicate times d
        else []))
     else []) ++
    (if !cfg.onlyAddition then
      (cfg.simpleBlockDigits.flatMap (fun d =>
        pushIf (0 ≤ state - d && state - d ≤ 9) (-d))) ++
      (cfg.brothersDigits.flatMap (fun d =>
        if 0 ≤ state - d && state - d ≤ 9 &&
            isBrotherTransition cfg state (state - d) then
          List.replicate times (-d)
        else []))
     else [])

/-- Models `BrothersRule.decomposeAction`: a brother transition becomes
`[±5, ∓brother]`; anything else stays a single micro-step. -/
def decomposeBrothers (cfg : BrothersCfg) (state action : Int) :
    List MicroStep :=
  let absAction := |action|
  if isBrotherTransition cfg state (state + action) then
    let brother := getBrother absAction
    if 0 < action then
      [⟨5, "upper"⟩, ⟨-brother, "lower"⟩]
    else
      [⟨-5, "upper"⟩, ⟨brother, "lower"⟩]
  else [⟨action, "simple"⟩]

/-- Models `BrothersRule.validateExample`: at least one brother step, intermediate
states in `[0,9]`, and the only-addition / only-subtraction flags. -/
def validateBrothers (cfg : BrothersCfg) (ex : Example) : Bool :=
  !ex.steps.isEmpty &&
  hasSigStep (isBrotherTransition cfg) ex.start ex.steps &&
  statesWithin 0 9 ex.start ex.steps &&
  !(cfg.onlyAddition && ex.steps.any (fun st => st.action < 0)) &&
  !(cfg.onlySubtraction && ex.steps.any (fun st => st.action > 0))

/-! ## FriendsRule (core/rules/FriendsRule.js) -/

/-- Resolved configuration of a `FriendsRule` instance; `selectedDigits` is
the raw input (kept in `this.config` by the constructor spread). -/
structure FriendsCfg where
  selectedDigits : List Int
  friendsDigits : List Int
  simpleBlockDigits : List Int
  minState : Int
  maxState : Int
  minSteps : Nat
  maxSteps : Nat
  onlyAddition : Bool
  onlySubtraction : Bool
  digitCount : Nat
  combineLevels : Bool
deriving Repr

/-- Models `FriendsRule` constructor: friends digits filtered to `[1,9]`, simple
block digits filtered to `[1,9]` with default `[1..5]`, `digitCount`
defaulting to 2. -/
def mkFriendsCfg (rawDigits : List Int) (simpleBlock : Option (List Int))
    (minSteps maxSteps : Nat) (onlyAddition onlySubtraction : Bool)
    (digitCount : Nat) (combineLevels : Bool) : FriendsCfg :=
  let friendsDigits := rawDigits.filter (fun n => 1 ≤ n && n ≤ 9)
  let simpleBlockDigits :=
    match simpleBlock with
    | some ds => ds.filter (fun n => 1 ≤ n && n ≤ 9)
    | none => [1, 2, 3, 4, 5]
  ⟨rawDigits, friendsDigits, simpleBlockDigits, 0, 99, minSteps, maxSteps,
   onlyAddition, onlySubtraction, digitCount, combineLevels⟩

/-- Models `getFriend`: complement to 10. -/
def getFriend (n : Int) : Int := 10 - n

/-- Models `FriendsRule._buildFriendPairs`: enumerates `v ∈ [0,99]` per selected
digit and records the `(from, to, digit)` transitions crossing a tens
boundary (string-keyed `Set` in the source; triples here, faithfully). -/
def friendPairs (digits : List Int) : List (Int × Int × Int) :=
  digits.flatMap (fun n =>
    ((List.range 100).flatMap (fun v0 =>
      let v : Int := v0
      let vNext := v + n
      pushIf (0 ≤ vNext && vNext ≤ 99 &&
        10 ≤ jsMod v 10 + n && jsFloorDiv v 10 < 9) (v, vNext, n))) ++
    ((List.range 100).flatMap (fun v0 =>
      let v : Int := v0
      let vNext := v - n
      pushIf (0 ≤ vNext && vNext ≤ 99 &&
        jsMod v 10 < n && 0 < jsFloorDiv v 10) (v, vNext, n))))

/-- Models `FriendsRule._isFriendTransition`. -/
def isFriendTransition (cfg : FriendsCfg) (fromS toS : Int) : Bool :=
  let delta := |toS - fromS|
  match cfg.friendsDigits.find? (fun n => delta == n) with
  | some n => (friendPairs cfg.friendsDigits).contains (fromS, toS, n)
  | none => false

/-- Models `FriendsRule.getAvailableActions`; friend actions replicated
`Math.floor(friendPriority * 10) = 5` times. -/
def getAvailableActionsFriends (cfg : FriendsCfg) (state : Int)
    (isFirst : Bool) : List Int :=
  let times := 5
  if isFirst && !cfg.onlySubtraction then
    (cfg.simpleBlockDigits.flatMap (fun d =>
      pushIf (0 ≤ state + d && state + d ≤ 99) d)) ++
    (cfg.friendsDigits.flatMap (fun d =>
      if 0 ≤ state + d && state + d ≤ 99 &&
          isFriendTransition cfg state (state + d) then
        List.replicate times d
      else []))
  else if state == 0 && !cfg.onlySubtraction then
    (cfg.simpleBlockDigits.flatMap (fun d => pushIf (d ≤ 99) d)) ++
    (cfg.friendsDigits.flatMap (fun d =>
      if state + d ≤ 99 && isFriendTransition cfg state (state + d) then
        List.replicate times d
      else []))
  else
    (if !cfg.onlySubtraction then
      (cfg.simpleBlockDigits.flatMap (fun d =>
        pushIf (0 ≤ state + d && state + d ≤ 99) d)) ++
      (cfg.friendsDigits.flatMap (fun d =>
        if 0 ≤ state + d && state + d ≤ 99 &&
            isFriendTransition cfg state (state + d) then
          List.replicate times d
        else []))
     else []) ++
    (if !cfg.onlyAddition then
      (cfg.simpleBlockDigits.flatMap (fun d =>
        pushIf (0 ≤ state - d && state - d ≤ 99) (-d))) ++
      (cfg.friendsDigits.flatMap (fun d =>
        if 0 ≤ state - d && state - d ≤ 99 &&
            isFriendTransition cfg state (state - d) then
          List.replicate times (-d)
        else []))
     else [])

/-- Models `FriendsRule.validateExample`: at least one friend step, intermediate
states in `[0,99]`, and the flag checks.  Note: unlike `BaseRule`, this
validator never re-checks that the answer equals the re-summed steps. -/
def validateFriends (cfg : FriendsCfg) (ex : Example) : Bool :=
  !ex.steps.isEmpty &&
  hasSigStep (isFriendTransition cfg) ex.start ex.steps &&
  statesWithin 0 99 ex.start ex.steps &&
  !(cfg.onlyAddition && ex.steps.any (fun st => st.action < 0)) &&
  !(cfg.onlySubtraction && ex.steps.any (fun st => st.action > 0))

/-! ## MixRule (core/rules/MixRule.js) -/

/-- Resolved configuration of a `MixRule` instance; `selectedDigits` is the
raw input value. -/
structure MixCfg where
  selectedDigits : List Int
  mixDigits : List Int
  simpleBlockDigits : List Int
  minState : Int
  maxState : Int
  minSteps : Nat
  maxSteps : Nat
  onlyAddition : Bool
  onlySubtraction : Bool
  digitCount : Nat
  combineLevels : Bool
deriving Repr

/-- Models `MixRule` constructor: mix digits filtered to `[6,9]`, simple block
digits filtered to `[1,9]` with default `[1..5]`. -/
def mkMixCfg (rawDigits : List Int) (simpleBlock : Option (List Int))
    (minSteps maxSteps : Nat) (onlyAddition onlySubtraction : Bool)
    (digitCount : Nat) (combineLevels : Bool) : MixCfg :=
  let mixDigits := rawDigits.filter (fun n => 6 ≤ n && n ≤ 9)
  let simpleBlockDigits :=
    match simpleBlock with
    | some ds => ds.filter (fun n => 1 ≤ n && n ≤ 9)
    | none => [1, 2, 3, 4, 5]
  ⟨rawDigits, mixDigits, simpleBlockDigits, 0, 99, minSteps, maxSteps,
   onlyAddition, onlySubtraction, digitCount, combineLevels⟩

/-- Key lookup in `MixRule.mixCombinations`: the map built by
`_buildMixCombinations` is keyed by `+n` and `-n` for each configured mix
digit `n`. -/
def mixHasKey (cfg : MixCfg) (delta : Int) : Bool :=
  cfg.mixDigits.any (fun n => delta == n || delta == -n)

/-- Models `MixRule._isMixTransition`: tens-boundary crossing plus the residual
condition `friend > 5`, where `friend = 10 - |delta|` (the source also
computes the unused `toUnits`/`toTens`, omitted). -/
def isMixTransition (cfg : MixCfg) (fromS toS : Int) : Bool :=
  let delta := toS - fromS
  if mixHasKey cfg delta then
    let fromUnits := jsMod fromS 10
    let fromTens := jsFloorDiv fromS 10
    if 0 < delta then
      let friend := getFriend delta
      decide (10 ≤ fromUnits + delta) && decide (fromTens < 9) &&
        decide (5 < friend)
    else if delta < 0 then
      let absDelta := |delta|
      let friend := getFriend absDelta
      decide (fromUnits < absDelta) && decide (0 < fromTens) &&
        decide (5 < friend)
    else false
  else false

/-- Models `MixRule.getAvailableActions`; mix actions replicated
`Math.floor(mixPriority * 10) = 6` times. -/
def getAvailableActionsMix (cfg : MixCfg) (state : Int) (isFirst : Bool) :
    List Int :=
  let times := 6
  if isFirst && !cfg.onlySubtraction then
    (cfg.simpleBlockDigits.flatMap (fun d =>
      pushIf (0 ≤ state + d && state + d ≤ 99) d)) ++
    (cfg.mixDigits.flatMap (fun d =>
      if 0 ≤ state + d && state + d ≤ 99 &&
          isMixTransition cfg state (state + d) then
        List.replicate times d
      else []))
  else if state == 0 && !cfg.onlySubtraction then
    (cfg.simpleBlockDigits.flatMap (fun d => pushIf (d ≤ 99) d)) ++
    (cfg.mixDigits.flatMap (fun d =>
      if state + d ≤ 99 && isMixTransition cfg state (state + d) then
        List.replicate times d
      else []))
  else
    (if !cfg.onlySubtraction then
      (cfg.simpleBlockDigits.flatMap (fun d =>
        pushIf (0 ≤ state + d && state + d ≤ 99) d)) ++
      (cfg.mixDigits.flatMap (fun d =>
        if 0 ≤ state + d && state + d ≤ 99 &&
            isMixTransition cfg state (state + d) then
          List.replicate times d
        else []))
     else []) ++
    (if !cfg.onlyAddition then
      (cfg.simpleBlockDigits.flatMap (fun d =>
        pushIf (0 ≤ state - d && state - d ≤ 99) (-d))) ++
      (cfg.mixDigits.flatMap (fun d =>
        if 0 ≤ state - d && state - d ≤ 99 &&
            isMixTransition cfg state (state - d) then
          List.replicate times (-d)
        else []))
     else [])

/-- Models `MixRule.decomposeAction`: actions keyed in `mixCombinations` expand to
the stored `microSteps` (built from `n = |action|`, `friend = 10 - n`);
anything else stays a single micro-step. -/
def decomposeMix (cfg : MixCfg) (action : Int) : List MicroStep :=
  if mixHasKey cfg action then
    if 0 < action then
      let friend := getFriend action
      [⟨10, "friend"⟩, ⟨-5, "brother"⟩, ⟨-(friend - 5), "simple"⟩]
    else
      let friend := getFriend (|action|)
      [⟨-10, "friend"⟩, ⟨5, "brother"⟩, ⟨friend - 5, "simple"⟩]
  else [⟨action, "simple"⟩]

/-- Models `MixRule.validateExample`: at least one mix step, intermediate states in
`[0,99]`, and the flag checks; like `FriendsRule`, the answer itself is not
re-checked. -/
def validateMix (cfg : MixCfg) (ex : Example) : Bool :=
  !ex.steps.isEmpty &&
  hasSigStep (isMixTransition cfg) ex.start ex.steps &&
  statesWithin 0 99 ex.start ex.steps &&
  !(cfg.onlyAddition && ex.steps.any (fun st => st.action < 0)) &&
  !(cfg.onlySubtraction && ex.steps.any (fun st => st.action > 0))

/-! ## ExampleGenerator (core/ExampleGenerator.js)

The generator is driven by `Math.random()` in three places: the steps-count
draw, and the index draws into the available-action lists (one per step, or
one per step and column in the independent multi-column mode).  Each attempt
therefore takes an `AttemptInput`: a natural number for the steps-count draw
and a total function giving the index draw for every step/column — a total
function cannot "run out", so a modelled run is exactly a possible run of
the source for some sequence of random draws. -/

/-- The dynamic-dispatch surface `ExampleGenerator` uses on a rule:
its configuration fields and its `getAvailableActions`/`validateExample`
methods (`applyAction` is state + action for all four rules, and
`generateStartState()` returns 0 for all four). -/
structure Rule where
  digitCount : Nat
  combineLevels : Bool
  minSteps : Nat
  maxSteps : Nat
  avail : Int → Bool → List Int
  validate : Example → Bool

/-- Models `UnifiedSimpleRule` seen through the `Rule` interface. -/
def simpleRule (cfg : SimpleCfg) : Rule :=
  ⟨cfg.digitCount, cfg.combineLevels, cfg.minSteps, cfg.maxSteps,
   getAvailableActionsSimple cfg, validateSimple cfg⟩

/-- Models `BrothersRule` seen through the `Rule` interface. -/
def brothersRule (cfg : BrothersCfg) : Rule :=
  ⟨cfg.digitCount, cfg.combineLevels, cfg.minSteps, cfg.maxSteps,
   getAvailableActionsBrothers cfg, validateBrothers cfg⟩

/-- Models `FriendsRule` seen through the `Rule` interface. -/
def friendsRule (cfg : FriendsCfg) : Rule :=
  ⟨cfg.digitCount, cfg.combineLevels, cfg.minSteps, cfg.maxSteps,
   getAvailableActionsFriends cfg, validateFriends cfg⟩

/-- Models `MixRule` seen through the `Rule` interface. -/
def mixRule (cfg : MixCfg) : Rule :=
  ⟨cfg.digitCount, cfg.combineLevels, cfg.minSteps, cfg.maxSteps,
   getAvailableActionsMix cfg, validateMix cfg⟩

/-- The random draws consumed by one generation attempt: `stepsRand` feeds
`generateStepsCount`, `pick step column` feeds the
`Math.floor(Math.random() * available.length)` index draw. -/
structure AttemptInput where
  stepsRand : Nat
  pick : Nat → Nat → Nat

/-- Models `generateStepsCount()` of the four rules:
`minSteps + floor(random * (maxSteps - minSteps + 1))`, i.e. a uniform
integer in `[minSteps, maxSteps]`; the draw is modelled by `k` modulo the
span. -/
def stepsCountOf (r : Rule) (k : Nat) : Nat :=
  r.minSteps + k % (r.maxSteps - r.minSteps + 1)

/-- The step loop of `ExampleGenerator._generateSingleDigitAttempt`;
`none` models the `throw` on an empty available-action list. -/
def singleSteps (r : Rule) (pick : Nat → Nat → Nat) :
    Nat → Nat → Int → List Step → Option (List Step × Int)
  | 0, _, cur, acc => some (acc.reverse, cur)
  | Nat.succ n, i, cur, acc =>
    let available := r.avail cur (i == 0)
    if available.isEmpty then none
    else
      let a := available.getD (pick i 0 % available.length) 0
      singleSteps r pick n (i + 1) (cur + a) (⟨a, cur, cur + a⟩ :: acc)

/-- Models `ExampleGenerator._generateSingleDigitAttempt`. -/
def singleDigitAttempt (r : Rule) (inp : AttemptInput) : Option Example :=
  match singleSteps r inp.pick (stepsCountOf r inp.stepsRand) 0 0 [] with
  | none => none
  | some (steps, final) => some ⟨0, steps, final⟩

/-- Models `ExampleGenerator._vectorToNumber`: positional base-10 value of a digit
vector,  `sum(val * 10^(len-1-idx))`. -/
def vecToNum (v : List Int) : Int :=
  v.enum.foldl (fun s p => s + p.2 * (10 : Int) ^ (v.length - 1 - p.1)) 0

/-- Lock-step (`combineLevels`) loop of
`ExampleGenerator._generateMultiDigitAttemptVectorBased`: one action is
drawn from column 0's available set and added to every column; recorded
`fromState`/`toState` are the composite values but the recorded `action`
is the single per-column action.  `none` models the
`_pickCombinedAction` throw on an empty set. -/
def combinedSteps (r : Rule) (pick : Nat → Nat → Nat) :
    Nat → Nat → List Int → List Step → Option (List Step × List Int)
  | 0, _, vec, acc => some (acc.reverse, vec)
  | Nat.succ n, i, vec, acc =>
    let available := r.avail (vec.getD 0 0) (i == 0)
    if available.isEmpty then none
    else
      let a := available.getD (pick i 0 % available.length) 0
      let next := vec.map (fun x => x + a)
      combinedSteps r pick n (i + 1) next
        (⟨a, vecToNum vec, vecToNum next⟩ :: acc)

/-- Per-column advance of the independent-column mode: a column with an
empty available set is simply left unchanged. -/
def independentColumns (r : Rule) (pickRow : Nat → Nat) (isFirst : Bool) :
    Nat → List Int → List Int
  | _, [] => []
  | pos, x :: rest =>
    let available := r.avail x isFirst
    let x2 :=
      if available.isEmpty then x
      else x + available.getD (pickRow pos % available.length) 0
    x2 :: independentColumns r pickRow isFirst (pos + 1) rest

/-- Independent-column loop of
`_generateMultiDigitAttemptVectorBased`: the recorded `action` is the net
composite delta. -/
def independentSteps (r : Rule) (pick : Nat → Nat → Nat) :
    Nat → Nat → List Int → List Step → List Step × List Int
  | 0, _, vec, acc => (acc.reverse, vec)
  | Nat.succ n, i, vec, acc =>
    let next := independentColumns r (pick i) (i == 0) 0 vec
    independentSteps r pick n (i + 1) next
      (⟨vecToNum next - vecToNum vec, vecToNum vec, vecToNum next⟩ :: acc)

/-- Models `ExampleGenerator._generateMultiDigitAttemptVectorBased`. -/
def vectorAttempt (r : Rule) (inp : AttemptInput) : Option Example :=
  let n := stepsCountOf r inp.stepsRand
  let vec0 := List.replicate r.digitCount (0 : Int)
  if r.combineLevels then
    match combinedSteps r inp.pick n 0 vec0 [] with
    | none => none
    | some (steps, vec) => some ⟨vecToNum vec0, steps, vecToNum vec⟩
  else
    let p := independentSteps r inp.pick n 0 vec0 []
    some ⟨vecToNum vec0, p.1, vecToNum p.2⟩

/-- The truncation step of `ExampleGenerator.generate`: a chain longer than
`maxStepsAllowed` is cut and the answer recomputed as the running sum of
the kept prefix. -/
def truncateToMax (maxStepsAllowed : Nat) (ex : Example) : Example :=
  if maxStepsAllowed < ex.steps.length then
    let steps := ex.steps.take maxStepsAllowed
    ⟨ex.start, steps, ex.start + sumActions steps⟩
  else ex

/-- One iteration of the `ExampleGenerator.generate` attempt loop: run the
single-digit or vector attempt, truncate to `maxSteps`, validate; `none`
means "this attempt threw or failed validation, continue". -/
def attemptOutcome (r : Rule) (inp : AttemptInput) : Option Example :=
  let raw :=
    if r.digitCount == 1 then singleDigitAttempt r inp else vectorAttempt r inp
  match raw with
  | none => none
  | some e =>
    let e2 := truncateToMax r.maxSteps e
    if r.validate e2 then some e2 else none

/-- Models `ExampleGenerator._generateFallbackExample`: the hard-coded 3-step
fallback returned when the attempt budget is exhausted. -/
def fallbackExample : Example :=
  ⟨0, [⟨1, 0, 1⟩, ⟨1, 1, 2⟩, ⟨-1, 2, 1⟩], 1⟩

/-- The attempt loop of `ExampleGenerator.generate`: the first attempt that
survives validation is returned; an exhausted input list yields the
hard-coded fallback. -/
def generateRun (r : Rule) : List AttemptInput → Example
  | [] => fallbackExample
  | inp :: rest =>
    match attemptOutcome r inp with
    | some e => e
    | none => generateRun r rest

/-- The attempt budget of `ExampleGenerator.generate`: 100 for one digit,
200 for 2-3 digits, 250 beyond, doubled when the columns move
independently. -/
def maxAttemptsFor (r : Rule) : Nat :=
  let base :=
    if r.digitCount == 1 then 100
    else if r.digitCount ≤ 3 then 200
    else 250
  if !r.combineLevels && 1 < r.digitCount then base * 2 else base

/-- Asserts that `e` is a possible return value of `ExampleGenerator.generate` on rule
`r`: some assignment of the random draws of the full attempt budget makes
the run produce `e`. -/
def GenReturns (r : Rule) (e : Example) : Prop :=
  ∃ inputs : List AttemptInput,
    inputs.length = maxAttemptsFor r ∧ generateRun r inputs = e

/-! ## MultiDigitGenerator (core/MultiDigitGenerator.js) -/

/-- The random draws consumed by `_generateMultiDigitAction` for one step:
the variable-digit-count draw, the digit-index draw per (position, retry),
the duplicate-allowance roll per (position, retry), and the sign roll. -/
structure MDGOracle where
  digitCountRand : Nat
  digitRand : Nat → Nat → Nat
  dupRand : Nat → Nat → Bool
  signRand : Bool

/-- A `MultiDigitGenerator` instance: display digit count, device digit
count (display + 1), the wrapped rule's digit set and flags, and the
wrapped rule's `validateExample` / `generateStepsCount` data
(`maxZeroDigits` is the constant 1 and the duplicate probability is
modelled by the Boolean rolls). -/
structure MDG where
  displayDigitCount : Nat
  maxDigitCount : Nat
  variableDigitCounts : Bool
  selectedDigits : List Int
  onlyAddition : Bool
  onlySubtraction : Bool
  minSteps : Nat
  maxSteps : Nat
  validate : Example → Bool

/-- The `MultiDigitGenerator` constructor geometry:
`displayDigitCount = max(1, min(9, maxDigitCount))` and one extra device
column for carries. -/
def mkMDG (maxDigitCountIn : Nat) (variableDC : Bool) (selected : List Int)
    (onlyAddition onlySubtraction : Bool) (minSteps maxSteps : Nat)
    (validate : Example → Bool) : MDG :=
  let display := max 1 (min 9 maxDigitCountIn)
  ⟨display, display + 1, variableDC, selected, onlyAddition, onlySubtraction,
   minSteps, maxSteps, validate⟩

/-- Models `MultiDigitGenerator.generateStepsCount` delegates to the base rule:
uniform integer in `[minSteps, maxSteps]`. -/
def mdgStepsCount (m : MDG) (k : Nat) : Nat :=
  m.minSteps + k % (m.maxSteps - m.minSteps + 1)

/-- The bounded digit-retry loop inside `_generateMultiDigitAction`
(`maxDigitAttempts = 50`): draws a digit, rejects duplicates unless the
duplicate roll allows them, rejects a leading zero and zeros beyond the
zero budget; `none` models retry exhaustion (the caller then falls back to
`selectedDigits[0]`). -/
def pickDigitLoop (selected : List Int) (used : List Int)
    (zeroUsed maxZero : Nat) (pos : Nat) (digitRand : Nat → Nat)
    (dupRand : Nat → Bool) : Nat → Nat → Option Int
  | 0, _ => none
  | Nat.succ fuel, attempts =>
    let digit := selected.getD (digitRand attempts % selected.length) 0
    let allowDuplicate := dupRand attempts
    if !used.contains digit || allowDuplicate then
      if pos == 0 && digit == 0 then
        pickDigitLoop selected used zeroUsed maxZero pos digitRand dupRand
          fuel (attempts + 1)
      else if digit == 0 && maxZero ≤ zeroUsed then
        pickDigitLoop selected used zeroUsed maxZero pos digitRand dupRand
          fuel (attempts + 1)
      else some digit
    else
      pickDigitLoop selected used zeroUsed maxZero pos digitRand dupRand
        fuel (attempts + 1)

/-- The digit-selection loop of `_generateMultiDigitAction`: builds the
digit list position by position, threading the `usedDigits` set and the
attempt-wide `_zeroDigitsUsed` counter. -/
def mdgDigits (selected : List Int) (maxZero : Nat) (orc : MDGOracle) :
    Nat → Nat → List Int → Nat → List Int × Nat
  | 0, _, acc, zeroUsed => (acc.reverse, zeroUsed)
  | Nat.succ remaining, pos, acc, zeroUsed =>
    let digit :=
      match pickDigitLoop selected acc zeroUsed maxZero pos
          (orc.digitRand pos) (orc.dupRand pos) 50 0 with
      | some d => d
      | none => selected.getD 0 0
    mdgDigits selected maxZero orc remaining (pos + 1) (digit :: acc)
      (zeroUsed + (if digit == 0 then 1 else 0))

/-- Models `MultiDigitGenerator._generateMultiDigitAction`: digit-length draw,
digit selection, positional composition, sign choice, and the final bounds
check (`none` models the `return null`).  Also returns the updated
zero-digit counter. -/
def mdgAction (m : MDG) (currentState : Int) (isFirst : Bool)
    (zeroUsed : Nat) (orc : MDGOracle) : Option Int × Nat :=
  let digitCount :=
    if m.variableDigitCounts then 1 + orc.digitCountRand % m.displayDigitCount
    else m.displayDigitCount
  let p := mdgDigits m.selectedDigits 1 orc digitCount 0 [] zeroUsed
  let number := vecToNum p.1
  let sign : Int :=
    if isFirst then 1
    else if currentState == 0 then 1
    else if m.onlyAddition then 1
    else if m.onlySubtraction then -1
    else if orc.signRand then 1 else -1
  let action := number * sign
  let nextState := currentState + action
  if nextState < 0 || (10 : Int) ^ m.maxDigitCount ≤ nextState then
    (none, p.2)
  else (some action, p.2)

/-- The step loop of `MultiDigitGenerator._generateAttempt`; `none` models
either throw (null action, or the redundant bounds re-check). -/
def mdgSteps (m : MDG) (orcs : Nat → MDGOracle) :
    Nat → Nat → Int → Nat → List Step → Option (List Step × Int)
  | 0, _, cur, _, acc => some (acc.reverse, cur)
  | Nat.succ n, i, cur, zeroUsed, acc =>
    match mdgAction m cur (i == 0) zeroUsed (orcs i) with
    | (none, _) => none
    | (some a, z2) =>
      let next := cur + a
      if next < 0 || (10 : Int) ^ m.maxDigitCount ≤ next then none
      else mdgSteps m orcs n (i + 1) next z2 (⟨a, cur, next⟩ :: acc)

/-- Models `MultiDigitGenerator._generateAttempt` (zero counter reset on entry;
start state 0). -/
def mdgAttempt (m : MDG) (stepsCount : Nat) (orcs : Nat → MDGOracle) :
    Option Example :=
  match mdgSteps m orcs stepsCount 0 0 0 [] with
  | none => none
  | some (steps, final) => some ⟨0, steps, final⟩

/-- One iteration of the `MultiDigitGenerator.generateExample` attempt
loop: attempt plus base-rule validation. -/
def mdgAttemptOutcome (m : MDG) (stepsCount : Nat) (orcs : Nat → MDGOracle) :
    Option Example :=
  match mdgAttempt m stepsCount orcs with
  | none => none
  | some e => if m.validate e then some e else none

/-- The attempt loop of `MultiDigitGenerator.generateExample` (budget 500
in the source): the steps count is drawn once before the loop; exhausting
the attempts yields `none`, modelling the
`throw new Error(...)` that `ExampleGenerator.generate` forwards to its
caller unguarded. -/
def mdgGenerateRun (m : MDG) (stepsCount : Nat) :
    List (Nat → MDGOracle) → Option Example
  | [] => none
  | orcs :: rest =>
    match mdgAttemptOutcome m stepsCount orcs with
    | some e => some e
    | none => mdgGenerateRun m stepsCount rest

/-! ## core/generator.js: generateExample(settings) -/

/-- A settings block (`{ digits, onlyAddition, onlySubtraction }`). -/
structure Block where
  digits : List Int
  onlyAddition : Bool
  onlySubtraction : Bool

/-- The four optional settings blocks. -/
structure Blocks where
  simple : Option Block
  brothers : Option Block
  friends : Option Block
  mix : Option Block

/-- Models `settings.actions`: `{ count, min, max, infinite }`. -/
structure ActionsCfg where
  infinite : Bool
  minCount : Option Nat
  maxCount : Option Nat
  count : Option Nat

/-- The settings consumed by `generateExample`. -/
structure Settings where
  digits : Int
  combineLevels : Bool
  actions : ActionsCfg
  blocks : Blocks

/-- An example in the trainer format produced by `toTrainerFormat`:
steps as `"+N"` / `"-N"` tokens. -/
structure TrainerExample where
  start : Int
  steps : List String
  answer : Int
deriving DecidableEq, Repr

/-- One `"+N"` / `"-N"` token. -/
def actionToken (a : Int) : String :=
  if 0 < a then "+" ++ toString a else toString a

/-- Models `ExampleGenerator.toTrainerFormat`. -/
def toTrainerFormat (e : Example) : TrainerExample :=
  ⟨e.start, e.steps.map (fun st => actionToken st.action), e.answer⟩

/-- The randomness consumed by one `generateExample(settings)` call:
attempt inputs for the `ExampleGenerator` loop, and the steps-count draw
plus per-attempt oracles for the `MultiDigitGenerator` path. -/
structure CoreRand where
  attempts : List AttemptInput
  mdgStepsRand : Nat
  mdgAttempts : List (Nat → MDGOracle)

/-- The catch-all fallback of `generateExample`:
`{ start: 0, steps: ["+1","+2","-1"], answer: 2 }`. -/
def coreFallback : TrainerExample :=
  ⟨0, ["+1", "+2", "-1"], 2⟩

/-- The digits of a possibly-absent block (absent ⇒ `[]`). -/
def blockDigits (b : Option Block) : List Int :=
  match b with
  | some bl => bl.digits
  | none => []

/-- The `onlyAddition` flag of a possibly-absent block (`?? false`). -/
def blockOnlyAdd (b : Option Block) : Bool :=
  match b with
  | some bl => bl.onlyAddition
  | none => false

/-- The `onlySubtraction` flag of a possibly-absent block (`?? false`). -/
def blockOnlySub (b : Option Block) : Bool :=
  match b with
  | some bl => bl.onlySubtraction
  | none => false

/-- Models `config.blocks?.simple?.digits` as passed to the Brothers, Friends and
Mix constructors: present iff the simple block is present. -/
def simpleBlockOf (bs : Blocks) : Option (List Int) :=
  match bs.simple with
  | some bl => some bl.digits
  | none => none

/-- Run a single-digit-count rule through `ExampleGenerator.generate` and
format the result. -/
def runRuleSingle (r : Rule) (rand : CoreRand) : TrainerExample :=
  toTrainerFormat (generateRun r rand.attempts)

/-- Run a `MultiDigitGenerator` through `ExampleGenerator.generate`: the
result is returned directly, and the throw on budget exhaustion is caught
only by the outer `try` of `generateExample`, which answers with its own
fallback. -/
def runRuleMdg (m : MDG) (rand : CoreRand) : TrainerExample :=
  match mdgGenerateRun m (mdgStepsCount m rand.mdgStepsRand)
      rand.mdgAttempts with
  | some e => toTrainerFormat e
  | none => coreFallback

/-- Models `generateExample(settings)` from core/generator.js: resolves the digit
count and the step range, picks the active block by priority
(Mix > Friends > Brothers > Simple), builds the rule configuration exactly
as the dispatcher does (with `digitCount: 1` inside the rule config), and
runs either the rule directly or a `MultiDigitGenerator` wrapper when the
requested digit count exceeds 1. -/
def coreGenerateExample (s : Settings) (rand : CoreRand) : TrainerExample :=
  let digitCount : Nat := if 0 < s.digits then s.digits.toNat else 1
  let combineLevels := s.combineLevels
  let minSteps : Nat :=
    if s.actions.infinite then 2
    else s.actions.minCount.getD (s.actions.count.getD 2)
  let maxSteps : Nat :=
    if s.actions.infinite then 12
    else s.actions.maxCount.getD (s.actions.count.getD 4)
  let simpleDigits := blockDigits s.blocks.simple
  let brothersDigits := blockDigits s.blocks.brothers
  let friendsDigits := blockDigits s.blocks.friends
  let mixDigits := blockDigits s.blocks.mix
  if !mixDigits.isEmpty then
    let sel := mixDigits.filter (fun n => 6 ≤ n && n ≤ 9)
    let selD := if sel.isEmpty then [6, 7, 8, 9] else sel
    let oa := blockOnlyAdd s.blocks.mix
    let os := blockOnlySub s.blocks.mix
    let cfg := mkMixCfg selD (simpleBlockOf s.blocks) minSteps maxSteps
      oa os 1 combineLevels
    if 1 < digitCount then
      runRuleMdg (mkMDG digitCount combineLevels cfg.selectedDigits
        cfg.onlyAddition cfg.onlySubtraction cfg.minSteps cfg.maxSteps
        (validateMix cfg)) rand
    else runRuleSingle (mixRule cfg) rand
  else if !friendsDigits.isEmpty then
    let sel := friendsDigits.filter (fun n => 1 ≤ n && n ≤ 9)
    let selD := if sel.isEmpty then [9] else sel
    let oa := blockOnlyAdd s.blocks.friends
    let os := blockOnlySub s.blocks.friends
    let cfg := mkFriendsCfg selD (simpleBlockOf s.blocks) minSteps maxSteps
      oa os 1 combineLevels
    if 1 < digitCount then
      runRuleMdg (mkMDG digitCount combineLevels cfg.selectedDigits
        cfg.onlyAddition cfg.onlySubtraction cfg.minSteps cfg.maxSteps
        (validateFriends cfg)) rand
    else runRuleSingle (friendsRule cfg) rand
  else if !brothersDigits.isEmpty then
    let sel := brothersDigits.filter (fun n => 1 ≤ n && n ≤ 4)
    let selD := if sel.isEmpty then [4] else sel
    let oa := blockOnlyAdd s.blocks.brothers
    let os := blockOnlySub s.blocks.brothers
    let cfg := mkBrothersCfg selD (simpleBlockOf s.blocks) minSteps maxSteps
      oa os 1 combineLevels
    if 1 < digitCount then
      runRuleMdg (mkMDG digitCount combineLevels cfg.selectedDigits
        cfg.onlyAddition cfg.onlySubtraction cfg.minSteps cfg.maxSteps
        (validateBrothers cfg)) rand
    else runRuleSingle (brothersRule cfg) rand
  else
    let sel := simpleDigits.filter (fun n => 1 ≤ n && n ≤ 9)
    let includeFive := sel.any (fun d => 5 ≤ d)
    let selD := if sel.isEmpty then [1, 2, 3, 4] else sel
    let oa := blockOnlyAdd s.blocks.simple
    let os := blockOnlySub s.blocks.simple
    let cfg := mkSimpleCfg selD includeFive minSteps maxSteps oa os
      1 combineLevels
    if 1 < digitCount then
      runRuleMdg (mkMDG digitCount combineLevels cfg.selectedDigits
        cfg.onlyAddition cfg.onlySubtraction cfg.minSteps cfg.maxSteps
        (validateSimple cfg)) rand
    else runRuleSingle (simpleRule cfg) rand

/-! ## PrintGenerator (print/PrintGenerator.js) -/

/-- The caller-supplied `PrintGenerator` configuration. -/
structure PrintConfigInput where
  examplesCount : Int
  actionsCount : Int
  digitCount : Int
  blocks : Blocks
  combineLevels : Bool

/-- JavaScript `x || d` on integers: 0 is falsy. -/
def jsOrInt (x d : Int) : Int := if x == 0 then d else x

/-- The stored configuration after the constructor's `||`-defaulting
(`examplesCount || 20`, `actionsCount || 5`, `digitCount || 1`).
`maxAttemptsPerExample` defaults to 100 and `verbose` to false. -/
structure PrintConfig where
  examplesCount : Int
  actionsCount : Int
  digitCount : Int
  blocks : Blocks
  combineLevels : Bool

/-- The `PrintGenerator` constructor. -/
def mkPrintConfig (c : PrintConfigInput) : PrintConfig :=
  ⟨jsOrInt c.examplesCount 20, jsOrInt c.actionsCount 5,
   jsOrInt c.digitCount 1, c.blocks, c.combineLevels⟩

/-- Models `PrintGenerator._hasActiveBlock`. -/
def blockActive (b : Option Block) : Bool :=
  match b with
  | some bl => !bl.digits.isEmpty
  | none => false

/-- Whether any of the four named blocks has digits. -/
def hasActiveBlock (bs : Blocks) : Bool :=
  blockActive bs.simple || blockActive bs.brothers ||
  blockActive bs.friends || blockActive bs.mix

/-- Models `PrintGenerator.validate`: the first violated precondition, as the
thrown error (the source messages are Russian; shortened here), or `none`
when validation passes.  On the `Int` model `Number.isInteger` always
holds. -/
def printValidateError (c : PrintConfig) : Option String :=
  if !(1 ≤ c.examplesCount && c.examplesCount ≤ 1000) then
    some "examplesCount must be between 1 and 1000"
  else if !(1 ≤ c.actionsCount && c.actionsCount ≤ 20) then
    some "actionsCount must be between 1 and 20"
  else if !(1 ≤ c.digitCount && c.digitCount ≤ 9) then
    some "digitCount must be between 1 and 9"
  else if !hasActiveBlock c.blocks then
    some "at least one block must be selected"
  else if blockActive c.blocks.friends && c.digitCount < 2 then
    some "friends block requires at least 2 digits"
  else if blockActive c.blocks.mix && c.digitCount < 2 then
    some "mix block requires at least 2 digits"
  else none

/-- An element of the list `PrintGenerator.generate` returns. -/
structure PrintExample where
  id : Nat
  steps : List String
  answer : Int
  start : Int
deriving DecidableEq, Repr

/-- The settings `_generateSingleExample` hands to `generateExample`. -/
def printSettingsOf (c : PrintConfig) : Settings :=
  ⟨c.digitCount, c.combineLevels,
   ⟨false, none, none, some c.actionsCount.toNat⟩, c.blocks⟩

/-- Models `PrintGenerator._generateFallbackExample`: token pattern
`'+1'` then alternating `'-1'` / `'+2'`, capped at
`min(3, actionsCount)` steps, answer re-summed. -/
def printFallback (c : PrintConfig) (id : Nat) : PrintExample :=
  let actionsCount := min 3 c.actionsCount.toNat
  let steps := (List.range actionsCount).map (fun i =>
    if i == 0 then "+1" else if i % 2 == 0 then "+2" else "-1")
  let answer := ((List.range actionsCount).map (fun i =>
    if i == 0 then (1 : Int) else if i % 2 == 0 then 2 else -1)).sum
  ⟨id, steps, answer, 0⟩

/-- The retry loop of `PrintGenerator._generateSingleExample`
(`maxAttemptsPerExample = 100`): `generateExample` never throws in the
model (its own catch-all returns `coreFallback`), so the loop accepts the
first result with non-empty steps; exhaustion falls back to
`printFallback`. -/
def printSingleLoop (c : PrintConfig) (id : Nat) (rands : Nat → CoreRand) :
    Nat → Nat → PrintExample
  | 0, _ => printFallback c id
  | Nat.succ fuel, attemptIdx =>
    let raw := coreGenerateExample (printSettingsOf c) (rands attemptIdx)
    if raw.steps.isEmpty then printSingleLoop c id rands fuel (attemptIdx + 1)
    else ⟨id, raw.steps, raw.answer, jsOrInt raw.start 0⟩

/-- Models `PrintGenerator._generateSingleExample`. -/
def printSingle (c : PrintConfig) (id : Nat) (rands : Nat → CoreRand) :
    PrintExample :=
  printSingleLoop c id rands 100 0

/-- Whether an `Except` result is a success. -/
def exceptIsOk {ε α : Type} (e : Except ε α) : Bool :=
  match e with
  | Except.ok _ => true
  | Except.error _ => false

/-- Models `PrintGenerator.generate`: `validate()` errors are re-thrown to the
caller before any generation; afterwards every per-example error is caught
inside the loop, so the only error the method can raise is the
validation one. -/
def printGenerate (cin : PrintConfigInput) (rands : Nat → Nat → CoreRand) :
    Except String (List PrintExample) :=
  let c := mkPrintConfig cin
  match printValidateError c with
  | some msg => Except.error msg
  | none =>
    Except.ok ((List.range c.examplesCount.toNat).map
      (fun i => printSingle c (i + 1) (rands i)))

/-! ## Basic lemmas about the embedded operations -/

theorem sumActions_nil : sumActions [] = 0 := rfl

theorem sumActions_cons (st : Step) (l : List Step) :
    sumActions (st :: l) = st.action + sumActions l := by
  simp [sumActions]

theorem sumActions_reverse (l : List Step) :
    sumActions l.reverse = sumActions l := by
  simp [sumActions, List.sum_reverse]

/-- The answer re-summation fold of `BaseRule.validateExample` computes
`start + sumActions steps`. -/
theorem foldl_add_action (start : Int) (steps : List Step) :
    steps.foldl (fun s st => s + st.action) start = start + sumActions steps := by
  induction steps generalizing start with
  | nil => simp [sumActions]
  | cons st rest ih =>
    simp only [List.foldl, sumActions_cons, ih]
    ring

/-- A fold that only ever adds `0 * w` leaves its accumulator unchanged. -/
theorem foldl_zero_terms (l : List (Nat × Int)) (g : Nat → Int) (init : Int)
    (h : ∀ p ∈ l, p.2 = 0) :
    l.foldl (fun s p => s + p.2 * g p.1) init = init := by
  induction l generalizing init with
  | nil => rfl
  | cons a rest ih =>
    simp only [List.foldl]
    rw [h a (by simp), zero_mul, add_zero]
    exact ih init (fun p hp => h p (by simp [hp]))

/-- Lemma: `vecToNum` of an all-zero vector is 0. -/
theorem vecToNum_zero (v : List Int) (h : ∀ x ∈ v, x = 0) : vecToNum v = 0 := by
  unfold vecToNum
  refine foldl_zero_terms v.enum (fun i => (10 : Int) ^ (v.length - 1 - i)) 0 ?_
  intro p hp
  have hsnd : p.2 ∈ v.enum.map Prod.snd := List.mem_map_of_mem Prod.snd hp
  rw [List.enum_map_snd] at hsnd
  exact h _ hsnd

theorem vecToNum_replicate_zero (n : Nat) :
    vecToNum (List.replicate n (0 : Int)) = 0 :=
  vecToNum_zero _ (fun _ hx => List.eq_of_mem_replicate hx)

/-- Telescoping invariant of the single-digit step loop. -/
theorem singleSteps_spec (r : Rule) (pick : Nat → Nat → Nat) :
    ∀ (n i : Nat) (cur : Int) (acc : List Step) (p : List Step × Int),
      singleSteps r pick n i cur acc = some p →
      p.2 = cur + sumActions p.1 - sumActions acc := by
  intro n
  induction n with
  | zero =>
    intro i cur acc p h
    simp only [singleSteps, Option.some.injEq] at h
    subst h
    simp [sumActions_reverse]
  | succ n ih =>
    intro i cur acc p h
    simp only [singleSteps] at h
    split at h
    · exact absurd h (by simp)
    · have := ih (i + 1) _ _ p h
      rw [this, sumActions_cons]
      ring

theorem singleDigitAttempt_answer (r : Rule) (inp : AttemptInput)
    (e : Example) (h : singleDigitAttempt r inp = some e) :
    e.answer = e.start + sumActions e.steps := by
  unfold singleDigitAttempt at h
  cases hm : singleSteps r inp.pick (stepsCountOf r inp.stepsRand) 0 0 [] with
  | none => rw [hm] at h; exact absurd h (by simp)
  | some p =>
    rw [hm] at h
    simp only [Option.some.injEq] at h
    subst h
    have := singleSteps_spec r inp.pick _ 0 0 [] p hm
    simpa [sumActions] using this

theorem singleDigitAttempt_start (r : Rule) (inp : AttemptInput)
    (e : Example) (h : singleDigitAttempt r inp = some e) : e.start = 0 := by
  unfold singleDigitAttempt at h
  cases hm : singleSteps r inp.pick (stepsCountOf r inp.stepsRand) 0 0 [] with
  | none => rw [hm] at h; exact absurd h (by simp)
  | some p => rw [hm] at h; simp only [Option.some.injEq] at h; subst h; rfl

/-- Telescoping invariant of the independent-column step loop: the recorded
actions are composite deltas, so they re-sum to the composite final
state. -/
theorem independentSteps_spec (r : Rule) (pick : Nat → Nat → Nat) :
    ∀ (n i : Nat) (vec : List Int) (acc : List Step),
      vecToNum (independentSteps r pick n i vec acc).2 =
        vecToNum vec + sumActions (independentSteps r pick n i vec acc).1 -
          sumActions acc := by
  intro n
  induction n with
  | zero =>
    intro i vec acc
    simp [independentSteps, sumActions_reverse]
  | succ n ih =>
    intro i vec acc
    simp only [independentSteps]
    rw [ih]
    rw [sumActions_cons]
    ring

theorem vectorAttempt_answer (r : Rule) (inp : AttemptInput) (e : Example)
    (hc : r.combineLevels = false) (h : vectorAttempt r inp = some e) :
    e.answer = e.start + sumActions e.steps := by
  unfold vectorAttempt at h
  rw [hc] at h
  simp only [Bool.false_eq_true, if_false, Option.some.injEq] at h
  subst h
  have := independentSteps_spec r inp.pick (stepsCountOf r inp.stepsRand) 0
    (List.replicate r.digitCount 0) []
  simpa [sumActions] using this

theorem vectorAttempt_start (r : Rule) (inp : AttemptInput) (e : Example)
    (h : vectorAttempt r inp = some e) : e.start = 0 := by
  unfold vectorAttempt at h
  split at h
  · dsimp only at h
    cases hm : combinedSteps r inp.pick (stepsCountOf r inp.stepsRand) 0
        (List.replicate r.digitCount 0) [] with
    | none => rw [hm] at h; exact absurd h (by simp)
    | some p =>
      rw [hm] at h
      simp only [Option.some.injEq] at h
      subst h
      exact vecToNum_replicate_zero r.digitCount
  · dsimp only at h
    simp only [Option.some.injEq] at h
    subst h
    exact vecToNum_replicate_zero r.digitCount

theorem truncateToMax_start (m : Nat) (ex : Example) :
    (truncateToMax m ex).start = ex.start := by
  unfold truncateToMax
  split <;> rfl

/-- Whenever truncation actually cuts the chain, the answer is recomputed
as the running sum of the kept steps. -/
theorem truncateToMax_answer_of_cut (m : Nat) (ex : Example)
    (h : m < ex.steps.length) :
    (truncateToMax m ex).answer =
      (truncateToMax m ex).start + sumActions (truncateToMax m ex).steps := by
  unfold truncateToMax
  rw [if_pos h]

/-- Truncation preserves the answer identity. -/
theorem truncateToMax_answer (m : Nat) (ex : Example)
    (h : ex.answer = ex.start + sumActions ex.steps) :
    (truncateToMax m ex).answer =
      (truncateToMax m ex).start + sumActions (truncateToMax m ex).steps := by
  unfold truncateToMax
  split
  · rfl
  · exact h

theorem attemptOutcome_validate (r : Rule) (inp : AttemptInput) (e : Example)
    (h : attemptOutcome r inp = some e) : r.validate e = true := by
  unfold attemptOutcome at h
  cases hr : (if r.digitCount == 1 then singleDigitAttempt r inp
      else vectorAttempt r inp) with
  | none => rw [hr] at h; exact absurd h (by simp)
  | some e0 =>
    rw [hr] at h
    simp only at h
    split at h
    · simp only [Option.some.injEq] at h
      subst h
      assumption
    · exact absurd h (by simp)

theorem attemptOutcome_start (r : Rule) (inp : AttemptInput) (e : Example)
    (h : attemptOutcome r inp = some e) : e.start = 0 := by
  unfold attemptOutcome at h
  cases hr : (if r.digitCount == 1 then singleDigitAttempt r inp
      else vectorAttempt r inp) with
  | none => rw [hr] at h; exact absurd h (by simp)
  | some e0 =>
    rw [hr] at h
    simp only at h
    have h0 : e0.start = 0 := by
      split at hr
      · exact singleDigitAttempt_start r inp e0 hr
      · exact vectorAttempt_start r inp e0 hr
    split at h
    · simp only [Option.some.injEq] at h
      subst h
      rw [truncateToMax_start]
      exact h0
    · exact absurd h (by simp)

/-- Every value `generateRun` produces is either the fallback or a
validated attempt outcome. -/
theorem generateRun_cases (r : Rule) :
    ∀ (inputs : List AttemptInput) (e : Example), generateRun r inputs = e →
      e = fallbackExample ∨ ∃ inp, attemptOutcome r inp = some e := by
  intro inputs
  induction inputs with
  | nil =>
    intro e h
    left
    exact h.symm
  | cons a rest ih =>
    intro e h
    unfold generateRun at h
    cases ha : attemptOutcome r a with
    | some e2 =>
      rw [ha] at h
      dsimp only at h
      right
      exact ⟨a, by rw [ha, h]⟩
    | none =>
      rw [ha] at h
      exact ih e h

/-- When every attempt fails, the budget is exhausted and the run returns
the hard-coded fallback. -/
theorem generateRun_eq_fallback (r : Rule) :
    ∀ (inputs : List AttemptInput),
      (∀ inp ∈ inputs, attemptOutcome r inp = none) →
      generateRun r inputs = fallbackExample := by
  intro inputs
  induction inputs with
  | nil => intro _; rfl
  | cons a rest ih =>
    intro h
    unfold generateRun
    rw [h a (by simp)]
    exact ih (fun inp hm => h inp (by simp [hm]))

/-- An attempt whose truncated result fails validation contributes
nothing. -/
theorem attemptOutcome_none_of_validate_false (r : Rule) (inp : AttemptInput)
    (hv : ∀ ex, r.validate ex = false) : attemptOutcome r inp = none := by
  unfold attemptOutcome
  cases hr : (if r.digitCount == 1 then singleDigitAttempt r inp
      else vectorAttempt r inp) with
  | none => rfl
  | some e0 =>
    simp only
    rw [hv (truncateToMax r.maxSteps e0)]
    simp

/-- Telescoping invariant of the multi-digit step loop. -/
theorem mdgSteps_spec (m : MDG) (orcs : Nat → MDGOracle) :
    ∀ (n i : Nat) (cur : Int) (z : Nat) (acc : List Step)
      (p : List Step × Int), mdgSteps m orcs n i cur z acc = some p →
      p.2 = cur + sumActions p.1 - sumActions acc := by
  intro n
  induction n with
  | zero =>
    intro i cur z acc p h
    simp only [mdgSteps, Option.some.injEq] at h
    subst h
    simp [sumActions_reverse]
  | succ n ih =>
    intro i cur z acc p h
    simp only [mdgSteps] at h
    split at h
    · exact absurd h (by simp)
    · split at h
      · exact absurd h (by simp)
      · have := ih (i + 1) _ _ _ p h
        rw [this, sumActions_cons]
        ring

theorem mdgAttempt_answer (m : MDG) (sc : Nat) (orcs : Nat → MDGOracle)
    (e : Example) (h : mdgAttempt m sc orcs = some e) :
    e.answer = e.start + sumActions e.steps := by
  unfold mdgAttempt at h
  cases hm : mdgSteps m orcs sc 0 0 0 [] with
  | none => rw [hm] at h; exact absurd h (by simp)
  | some p =>
    rw [hm] at h
    simp only [Option.some.injEq] at h
    subst h
    have := mdgSteps_spec m orcs sc 0 0 0 [] p hm
    simpa [sumActions] using this

theorem mdgAttempt_start (m : MDG) (sc : Nat) (orcs : Nat → MDGOracle)
    (e : Example) (h : mdgAttempt m sc orcs = some e) : e.start = 0 := by
  unfold mdgAttempt at h
  cases hm : mdgSteps m orcs sc 0 0 0 [] with
  | none => rw [hm] at h; exact absurd h (by simp)
  | some p => rw [hm] at h; simp only [Option.some.injEq] at h; subst h; rfl

theorem mdgAttemptOutcome_validate (m : MDG) (sc : Nat)
    (orcs : Nat → MDGOracle) (e : Example)
    (h : mdgAttemptOutcome m sc orcs = some e) : m.validate e = true := by
  unfold mdgAttemptOutcome at h
  cases hr : mdgAttempt m sc orcs with
  | none => rw [hr] at h; exact absurd h (by simp)
  | some e0 =>
    rw [hr] at h
    simp only at h
    split at h
    · simp only [Option.some.injEq] at h; subst h; assumption
    · exact absurd h (by simp)

theorem mdgAttemptOutcome_eq_attempt (m : MDG) (sc : Nat)
    (orcs : Nat → MDGOracle) (e : Example)
    (h : mdgAttemptOutcome m sc orcs = some e) :
    mdgAttempt m sc orcs = some e := by
  unfold mdgAttemptOutcome at h
  cases hr : mdgAttempt m sc orcs with
  | none => rw [hr] at h; exact absurd h (by simp)
  | some e0 =>
    rw [hr] at h
    simp only at h
    split at h
    · simp only [Option.some.injEq] at h; subst h; rfl
    · exact absurd h (by simp)

theorem mdgGenerateRun_cases (m : MDG) (sc : Nat) :
    ∀ (l : List (Nat → MDGOracle)) (e : Example),
      mdgGenerateRun m sc l = some e →
      ∃ orcs, mdgAttemptOutcome m sc orcs = some e := by
  intro l
  induction l with
  | nil => intro e h; exact absurd h (by simp [mdgGenerateRun])
  | cons a rest ih =>
    intro e h
    unfold mdgGenerateRun at h
    cases ha : mdgAttemptOutcome m sc a with
    | some e2 =>
      rw [ha] at h
      dsimp only at h
      exact ⟨a, by rw [ha, h]⟩
    | none => rw [ha] at h; exact ih e h

/-- When every attempt fails, `MultiDigitGenerator.generateExample` throws
(modelled by `none`). -/
theorem mdgGenerateRun_none (m : MDG) (sc : Nat) :
    ∀ (l : List (Nat → MDGOracle)),
      (∀ orcs ∈ l, mdgAttemptOutcome m sc orcs = none) →
      mdgGenerateRun m sc l = none := by
  intro l
  induction l with
  | nil => intro _; rfl
  | cons a rest ih =>
    intro h
    unfold mdgGenerateRun
    rw [h a (by simp)]
    exact ih (fun orcs hm => h orcs (by simp [hm]))

theorem mdgAttemptOutcome_none_of_validate_false (m : MDG) (sc : Nat)
    (orcs : Nat → MDGOracle) (hv : ∀ ex, m.validate ex = false) :
    mdgAttemptOutcome m sc orcs = none := by
  unfold mdgAttemptOutcome
  cases hr : mdgAttempt m sc orcs with
  | none => rfl
  | some e0 =>
    simp only
    rw [hv e0]
    simp

/-! ## The Mix classifier is unsatisfiable -/

/-- Every digit the `MixRule` constructor keeps lies in `[6,9]`. -/
theorem mixDigits_range (rawDigits : List Int) (simpleBlock : Option (List Int))
    (minSteps maxSteps : Nat) (oa os : Bool) (dc : Nat) (cl : Bool) :
    ∀ n ∈ (mkMixCfg rawDigits simpleBlock minSteps maxSteps oa os dc cl).mixDigits,
      6 ≤ n ∧ n ≤ 9 := by
  intro n hn
  simp only [mkMixCfg, List.mem_filter, Bool.and_eq_true, decide_eq_true_eq] at hn
  exact hn.2

/-- Lemma: `_isMixTransition` demands `10 - |delta| > 5` while every key of the
combination table has `|delta| ∈ [6,9]`: the classifier never accepts. -/
theorem isMixTransition_false (rawDigits : List Int)
    (simpleBlock : Option (List Int)) (minSteps maxSteps : Nat)
    (oa os : Bool) (dc : Nat) (cl : Bool) (fromS toS : Int) :
    isMixTransition (mkMixCfg rawDigits simpleBlock minSteps maxSteps oa os dc cl)
      fromS toS = false := by
  set cfg := mkMixCfg rawDigits simpleBlock minSteps maxSteps oa os dc cl with hcfg
  unfold isMixTransition
  cases hk : mixHasKey cfg (toS - fromS) with
  | false => rw [if_neg (by simp [hk])]
  | true =>
    rw [if_pos hk]
    dsimp only
    unfold mixHasKey at hk
    rw [List.any_eq_true] at hk
    obtain ⟨n, hn, hdelta⟩ := hk
    have hrange := mixDigits_range rawDigits simpleBlock minSteps maxSteps
      oa os dc cl n (hcfg ▸ hn)
    simp only [Bool.or_eq_true, beq_iff_eq] at hdelta
    rcases hdelta with hpos | hneg
    · rw [if_pos (by omega : (0 : Int) < toS - fromS)]
      have hf : decide ((5 : Int) < getFriend (toS - fromS)) = false := by
        simp only [getFriend, decide_eq_false_iff_not]
        omega
      rw [hf]
      simp
    · rw [if_neg (by omega : ¬ (0 : Int) < toS - fromS)]
      rw [if_pos (by omega : toS - fromS < 0)]
      have hf : decide ((5 : Int) < getFriend |toS - fromS|) = false := by
        simp only [getFriend, decide_eq_false_iff_not]
        rw [abs_of_neg (by omega : toS - fromS < 0)]
        omega
      rw [hf]
      simp

/-- A classifier that never accepts yields no signature step. -/
theorem hasSigStep_false (isSig : Int → Int → Bool)
    (h : ∀ a b, isSig a b = false) :
    ∀ (steps : List Step) (s : Int), hasSigStep isSig s steps = false := by
  intro steps
  induction steps with
  | nil => intro s; rfl
  | cons st rest ih =>
    intro s
    unfold hasSigStep
    rw [h s (s + st.action)]
    simpa using ih (s + st.action)

/-- Lemma: `MixRule.validateExample` rejects every example: its mandatory
signature-step check can never be satisfied. -/
theorem validateMix_false (rawDigits : List Int)
    (simpleBlock : Option (List Int)) (minSteps maxSteps : Nat)
    (oa os : Bool) (dc : Nat) (cl : Bool) (ex : Example) :
    validateMix (mkMixCfg rawDigits simpleBlock minSteps maxSteps oa os dc cl)
      ex = false := by
  unfold validateMix
  rw [hasSigStep_false _
    (fun a b => isMixTransition_false rawDigits simpleBlock minSteps maxSteps
      oa os dc cl a b) ex.steps ex.start]
  simp

/-! ## Validator projections and the running-sum bound -/

/-- Lemma: `statesWithin` plus in-bounds start gives in-bounds running sums for
every prefix. -/
theorem statesWithin_bounds (lo hi : Int) :
    ∀ (steps : List Step) (s : Int), statesWithin lo hi s steps = true →
      lo ≤ s → s ≤ hi → ∀ k : Nat,
        lo ≤ s + sumActions (steps.take k) ∧
          s + sumActions (steps.take k) ≤ hi := by
  intro steps
  induction steps with
  | nil =>
    intro s _ hlo hhi k
    simp only [List.take_nil, sumActions_nil, add_zero]
    exact ⟨hlo, hhi⟩
  | cons st rest ih =>
    intro s h hlo hhi k
    cases k with
    | zero =>
      simp only [List.take_zero, sumActions_nil, add_zero]
      exact ⟨hlo, hhi⟩
    | succ k =>
      unfold statesWithin at h
      simp only at h
      split at h
      · exact absurd h (by simp)
      ·
        rename_i hguard
        simp only [Bool.or_eq_true, decide_eq_true_eq, not_or] at hguard
        push_neg at hguard
        have h1 : lo ≤ s + st.action := hguard.1
        have h2 : s + st.action ≤ hi := hguard.2
        have := ih (s + st.action) h h1 h2 k
        simp only [List.take_succ_cons, sumActions_cons]
        constructor
        · have := this.1
          omega
        · have := this.2
          omega

/-- Projection out of the Friends validator. -/
theorem validateFriends_proj (cfg : FriendsCfg) (ex : Example)
    (h : validateFriends cfg ex = true) :
    hasSigStep (isFriendTransition cfg) ex.start ex.steps = true ∧
      statesWithin 0 99 ex.start ex.steps = true := by
  unfold validateFriends at h
  simp only [Bool.and_eq_true] at h
  tauto

/-- Projection out of the Brothers validator. -/
theorem validateBrothers_proj (cfg : BrothersCfg) (ex : Example)
    (h : validateBrothers cfg ex = true) :
    hasSigStep (isBrotherTransition cfg) ex.start ex.steps = true ∧
      statesWithin 0 9 ex.start ex.steps = true := by
  unfold validateBrothers at h
  simp only [Bool.and_eq_true] at h
  tauto

/-- Projection out of the Mix validator. -/
theorem validateMix_proj (cfg : MixCfg) (ex : Example)
    (h : validateMix cfg ex = true) :
    hasSigStep (isMixTransition cfg) ex.start ex.steps = true ∧
      statesWithin 0 99 ex.start ex.steps = true := by
  unfold validateMix at h
  simp only [Bool.and_eq_true] at h
  tauto

/-- Projection out of the Simple validator: with `digitCount = 1` the
`BaseRule` bounds re-simulation is active. -/
theorem validateSimple_proj (cfg : SimpleCfg) (ex : Example)
    (hdc : cfg.digitCount = 1) (h : validateSimple cfg ex = true) :
    statesWithin cfg.minState cfg.maxState ex.start ex.steps = true := by
  unfold validateSimple baseValidate at h
  simp only [Bool.and_eq_true, Bool.or_eq_true] at h
  rcases h.1.2 with hd | hs
  · rw [hdc] at hd
    simp at hd
  · exact hs

/-- Projection out of the base validator: the answer always re-sums. -/
theorem baseValidate_answer (minState maxState : Int) (oa os : Bool)
    (dc : Nat) (ex : Example)
    (h : baseValidate minState maxState oa os dc ex = true) :
    ex.answer = ex.start + sumActions ex.steps := by
  unfold baseValidate at h
  simp only [Bool.and_eq_true, beq_iff_eq] at h
  have := h.1.1.1.2
  rw [foldl_add_action] at this
  exact this.symm

/-- A successful brother classification pins the delta to a configured
digit. -/
theorem isBrotherTransition_delta (cfg : BrothersCfg) (a b : Int)
    (h : isBrotherTransition cfg a b = true) :
    ∃ n ∈ cfg.brothersDigits, |b - a| = n := by
  unfold isBrotherTransition at h
  dsimp only at h
  cases hf : cfg.brothersDigits.find? (fun n => |b - a| == n) with
  | none => rw [hf] at h; exact absurd h (by simp)
  | some n =>
    have hmem := List.mem_of_find?_eq_some hf
    have hp := List.find?_some hf
    simp only [beq_iff_eq] at hp
    exact ⟨n, hmem, hp⟩

/-! ## Claim theorems -/

/-- C4: for every `MixRule` instance (whose constructor keeps only digits
in `[6,9]`) and every pair of states in `[0,99]`, `_isMixTransition`
returns `false` — the residual `10 - |delta|` can never exceed 5 for a
delta in `[6,9]` — and consequently `MixRule.validateExample` rejects
every example. -/
theorem C4_mix_transition_never_holds :
    (∀ (rawDigits : List Int) (simpleBlock : Option (List Int))
       (minSteps maxSteps : Nat) (oa os : Bool) (dc : Nat) (cl : Bool)
       (fromS toS : Int), 0 ≤ fromS → fromS ≤ 99 → 0 ≤ toS → toS ≤ 99 →
       isMixTransition
         (mkMixCfg rawDigits simpleBlock minSteps maxSteps oa os dc cl)
         fromS toS = false) ∧
    (∀ (rawDigits : List Int) (simpleBlock : Option (List Int))
       (minSteps maxSteps : Nat) (oa os : Bool) (dc : Nat) (cl : Bool)
       (ex : Example),
       validateMix
         (mkMixCfg rawDigits simpleBlock minSteps maxSteps oa os dc cl)
         ex = false) := by
  constructor
  · intro rawDigits simpleBlock minSteps maxSteps oa os dc cl fromS toS _ _ _ _
    exact isMixTransition_false rawDigits simpleBlock minSteps maxSteps
      oa os dc cl fromS toS
  · intro rawDigits simpleBlock minSteps maxSteps oa os dc cl ex
    exact validateMix_false rawDigits simpleBlock minSteps maxSteps
      oa os dc cl ex

/-- Witness for C4 at a concrete instance and state pair. -/
theorem C4_witness :
    isMixTransition (mkMixCfg [6, 7, 8, 9] none 3 7 false false 2 false)
      13 20 = false ∧
    validateMix (mkMixCfg [6, 7, 8, 9] none 3 7 false false 2 false)
      ⟨0, [⟨7, 0, 7⟩], 7⟩ = false :=
  ⟨C4_mix_transition_never_holds.1 [6, 7, 8, 9] none 3 7 false false 2 false
      13 20 (by decide) (by decide) (by decide) (by decide),
   C4_mix_transition_never_holds.2 [6, 7, 8, 9] none 3 7 false false 2 false
      ⟨0, [⟨7, 0, 7⟩], 7⟩⟩

/-- The brother-transition classifier as the spec words it: the transition
must actually cross the 5-boundary, decomposing as `±5 ∓ (5-n)` without
violating bead availability at `from` — for addition the upper bead is
inactive and `5-n` active lower beads are removable after adding it; for
subtraction the mirror condition on active beads.  (Definition written
from the spec sentence, for comparison against the code's table.) -/
def brotherTransitionSpec (n fromS toS : Int) : Bool :=
  (decide (toS - fromS = n) && decide (upperOf fromS = 0) &&
   decide (getBrother n ≤ lowerOf fromS) &&
   decide (fromS < 5) && decide (5 ≤ toS)) ||
  (decide (fromS - toS = n) && decide (upperOf fromS = 1) &&
   decide (lowerOf fromS + getBrother n ≤ 4) &&
   decide (5 ≤ fromS) && decide (toS < 5))

/-- C7 (code bug): for `BrothersRule` with digit 4, the code's table
disagrees with the stated boundary-crossing/bead-availability condition:
the canonical brother subtraction `5 → 1` (remove the upper bead, add one
lower) is NOT classified, while `9 → 5` (a plain removal of four lower
beads, whose `-5 + 1` decomposition is physically impossible at state 9)
IS classified. -/
theorem C7_brother_table_vs_spec :
    isBrotherTransition (mkBrothersCfg [4] none 3 7 false false 1 false)
      5 1 = false ∧
    brotherTransitionSpec 4 5 1 = true ∧
    isBrotherTransition (mkBrothersCfg [4] none 3 7 false false 1 false)
      9 5 = true ∧
    brotherTransitionSpec 4 9 5 = false := by
  decide

/-- C8: `decomposeAction` of `BrothersRule` sums to the original action on
every signature transition; with digit 4 the decomposition is `[+5, -1]`
for `+4` and `[-5, +1]` for `-4`; and `decomposeAction` of `MixRule` sums
to the original action (for every action, keyed or not). -/
theorem C8_decompose_sum :
    (∀ (rawDigits : List Int) (sb : Option (List Int)) (ms mxs : Nat)
       (oa os : Bool) (dc : Nat) (cl : Bool) (state action : Int),
       isBrotherTransition (mkBrothersCfg rawDigits sb ms mxs oa os dc cl)
         state (state + action) = true →
       microSum (decomposeBrothers (mkBrothersCfg rawDigits sb ms mxs oa os dc cl)
         state action) = action) ∧
    (∀ state action : Int,
       isBrotherTransition (mkBrothersCfg [4] none 3 7 false false 1 false)
         state (state + action) = true →
       microActions (decomposeBrothers
         (mkBrothersCfg [4] none 3 7 false false 1 false) state action) =
         if 0 < action then [5, -1] else [-5, 1]) ∧
    (∀ (rawDigits : List Int) (sb : Option (List Int)) (ms mxs : Nat)
       (oa os : Bool) (dc : Nat) (cl : Bool) (action : Int),
       microSum (decomposeMix (mkMixCfg rawDigits sb ms mxs oa os dc cl)
         action) = action) := by
  refine ⟨?_, ?_, ?_⟩
  · intro rawDigits sb ms mxs oa os dc cl state action h
    unfold decomposeBrothers
    rw [if_pos h]
    by_cases hpos : 0 < action
    · rw [if_pos hpos]
      simp only [microSum, List.map, List.sum_cons, List.sum_nil, getBrother]
      rw [abs_of_pos hpos]
      ring
    · rw [if_neg hpos]
      simp only [microSum, List.map, List.sum_cons, List.sum_nil, getBrother]
      rw [abs_of_nonpos (le_of_not_lt hpos)]
      ring
  · intro state action h
    obtain ⟨n, hn, hd⟩ := isBrotherTransition_delta _ _ _ h
    have hn4 : n = 4 := by
      simp only [mkBrothersCfg, List.mem_filter] at hn
      simpa using hn.1
    have habs : |action| = 4 := by
      rw [hn4] at hd
      simpa using hd
    unfold decomposeBrothers
    rw [if_pos h]
    by_cases hpos : 0 < action
    · rw [if_pos hpos, if_pos hpos]
      simp [microActions, getBrother, habs]
    · rw [if_neg hpos, if_neg hpos]
      simp [microActions, getBrother, habs]
  · intro rawDigits sb ms mxs oa os dc cl action
    unfold decomposeMix
    by_cases hk : mixHasKey (mkMixCfg rawDigits sb ms mxs oa os dc cl)
        action = true
    · rw [if_pos hk]
      by_cases hpos : 0 < action
      · rw [if_pos hpos]
        simp only [microSum, List.map, List.sum_cons, List.sum_nil, getFriend]
        ring
      · rw [if_neg hpos]
        simp only [microSum, List.map, List.sum_cons, List.sum_nil, getFriend]
        rw [abs_of_nonpos (le_of_not_lt hpos)]
        ring
    · rw [if_neg hk]
      simp [microSum]

/-- Witness for C8 at the code's own signature transitions. -/
theorem C8_witness :
    microSum (decomposeBrothers (mkBrothersCfg [4] none 3 7 false false 1 false)
      0 4) = 4 ∧
    microActions (decomposeBrothers (mkBrothersCfg [4] none 3 7 false false 1 false)
      0 4) = [5, -1] ∧
    microSum (decomposeMix (mkMixCfg [6] none 3 7 false false 2 false) 6) = 6 :=
  ⟨C8_decompose_sum.1 [4] none 3 7 false false 1 false 0 4 (by decide),
   by simpa using C8_decompose_sum.2.1 0 4 (by decide),
   C8_decompose_sum.2.2 [6] none 3 7 false false 2 false 6⟩

/-- C10 fails as stated: an example with an empty step list re-sums to its
answer and respects both flags, yet `BaseRule.validateExample` rejects it
even with `digitCount > 1`. -/
theorem C10_counterexample :
    ((⟨0, [], 0⟩ : Example).answer =
      (⟨0, [], 0⟩ : Example).start +
        sumActions (⟨0, [], 0⟩ : Example).steps) ∧
    baseValidate 0 9 false false 2 (⟨0, [], 0⟩ : Example) = false := by
  constructor
  · decide
  · decide

/-- C10 (amended): with `digitCount > 1`, `BaseRule.validateExample`
performs no intermediate-state bounds check — every example with a
NON-EMPTY step list whose steps re-sum to its answer and respect the
`onlyAddition`/`onlySubtraction` flags is accepted, even when intermediate
states leave `[minState, maxState]`. -/
theorem C10_amended_accepts_resummed_nonempty :
    ∀ (minState maxState : Int) (oa os : Bool) (dc : Nat) (ex : Example),
      1 < dc → ex.steps ≠ [] →
      ex.answer = ex.start + sumActions ex.steps →
      (oa = true → ∀ st ∈ ex.steps, 0 ≤ st.action) →
      (os = true → ∀ st ∈ ex.steps, st.action ≤ 0) →
      baseValidate minState maxState oa os dc ex = true := by
  intro minState maxState oa os dc ex hdc hne hsum hoa hos
  unfold baseValidate
  simp only [Bool.and_eq_true, Bool.or_eq_true]
  refine ⟨⟨⟨⟨?_, ?_⟩, ?_⟩, ?_⟩, Or.inl (by simpa using hdc)⟩
  · simpa using hne
  · rw [foldl_add_action]
    simp [hsum]
  · cases oa with
    | false => simp
    | true =>
      simp only [Bool.true_and, Bool.not_eq_true']
      rw [List.any_eq_false]
      intro st hst
      simpa using not_lt.mpr (hoa rfl st hst)
  · cases os with
    | false => simp
    | true =>
      simp only [Bool.true_and, Bool.not_eq_true']
      rw [List.any_eq_false]
      intro st hst
      simpa using not_lt.mpr (hos rfl st hst)

/-- Witness for C10: a 2-digit-mode example whose running state dips to
`-7`, far outside `[0, 9]`, is accepted. -/
theorem C10_witness :
    baseValidate 0 9 false false 2
      (⟨0, [⟨5, 0, 5⟩, ⟨-12, 5, -7⟩, ⟨10, -7, 3⟩], 3⟩ : Example) = true :=
  C10_amended_accepts_resummed_nonempty 0 9 false false 2
    ⟨0, [⟨5, 0, 5⟩, ⟨-12, 5, -7⟩, ⟨10, -7, 3⟩], 3⟩
    (by decide) (by decide) (by decide)
    (fun h => absurd h (by decide))
    (fun h => absurd h (by decide))

/-! ## C6: first-action / zero-state sign contract -/

theorem mem_pushIf {α : Type} {c : Bool} {a x : α} (h : x ∈ pushIf c a) :
    x = a := by
  unfold pushIf at h
  split at h
  · simpa using h
  · simp at h

/-- Elements contributed by a guarded-push group come from the digit
list. -/
theorem mem_push_group {digits : List Int} {f : Int → Bool} {g : Int → Int}
    {a : Int} (h : a ∈ digits.flatMap (fun d => pushIf (f d) (g d))) :
    ∃ d ∈ digits, a = g d := by
  rw [List.mem_flatMap] at h
  obtain ⟨d, hd, ha⟩ := h
  exact ⟨d, hd, mem_pushIf ha⟩

/-- Elements contributed by a replicated signature-action group come from
the digit list. -/
theorem mem_sig_group {digits : List Int} {times : Nat} {f : Int → Bool}
    {a : Int}
    (h : a ∈ digits.flatMap (fun d => if f d then List.replicate times d else [])) :
    a ∈ digits := by
  rw [List.mem_flatMap] at h
  obtain ⟨d, hd, ha⟩ := h
  split at ha
  · rw [List.eq_of_mem_replicate ha]; exact hd
  · simp at ha

theorem mem_filter_lo {l : List Int} {lo hi d : Int}
    (h : d ∈ l.filter (fun n => lo ≤ n && n ≤ hi)) : lo ≤ d := by
  simp only [List.mem_filter, Bool.and_eq_true, decide_eq_true_eq] at h
  exact h.2.1

/-- The simple-block helper digits of the Brothers constructor are `≥ 1`
(filtered, or the default `[1..5]`). -/
theorem simpleBlock_pos (sb : Option (List Int)) (d : Int)
    (h : d ∈ (match sb with
      | some ds => ds.filter (fun n => 1 ≤ n && n ≤ 9)
      | none => [1, 2, 3, 4, 5])) : 1 ≤ d := by
  cases sb with
  | some ds => exact mem_filter_lo h
  | none =>
    simp only [List.mem_cons, List.not_mem_nil, or_false] at h
    rcases h with rfl | rfl | rfl | rfl | rfl <;> norm_num

/-- C6 (amended): for all four rule variants, all states and all
configurations WITH `onlySubtraction = false`, if `isFirst` is true or the
state is 0 then `getAvailableActions` returns only non-negative actions. -/
theorem C6_amended_nonnegative_actions :
    (∀ (raw : List Int) (inc : Bool) (ms mxs : Nat) (oa : Bool) (dc : Nat)
       (cl : Bool) (state : Int) (isFirst : Bool),
       isFirst = true ∨ state = 0 →
       ∀ a ∈ getAvailableActionsSimple
           (mkSimpleCfg raw inc ms mxs oa false dc cl) state isFirst,
         0 ≤ a) ∧
    (∀ (raw : List Int) (sb : Option (List Int)) (ms mxs : Nat) (oa : Bool)
       (dc : Nat) (cl : Bool) (state : Int) (isFirst : Bool),
       isFirst = true ∨ state = 0 →
       ∀ a ∈ getAvailableActionsBrothers
           (mkBrothersCfg raw sb ms mxs oa false dc cl) state isFirst,
         0 ≤ a) ∧
    (∀ (raw : List Int) (sb : Option (List Int)) (ms mxs : Nat) (oa : Bool)
       (dc : Nat) (cl : Bool) (state : Int) (isFirst : Bool),
       isFirst = true ∨ state = 0 →
       ∀ a ∈ getAvailableActionsFriends
           (mkFriendsCfg raw sb ms mxs oa false dc cl) state isFirst,
         0 ≤ a) ∧
    (∀ (raw : List Int) (sb : Option (List Int)) (ms mxs : Nat) (oa : Bool)
       (dc : Nat) (cl : Bool) (state : Int) (isFirst : Bool),
       isFirst = true ∨ state = 0 →
       ∀ a ∈ getAvailableActionsMix
           (mkMixCfg raw sb ms mxs oa false dc cl) state isFirst,
         0 ≤ a) := by
  refine ⟨?_, ?_, ?_, ?_⟩
  · intro raw inc ms mxs oa dc cl state isFirst hcond a ha
    rcases hcond with hif | hst
    · subst hif
      simp only [getAvailableActionsSimple, mkSimpleCfg] at ha
      simp only [Bool.not_false, Bool.and_true, if_true] at ha
      rw [List.mem_flatMap] at ha
      obtain ⟨d, hd, hp⟩ := ha
      obtain rfl := mem_pushIf hp
      have := mem_filter_lo hd
      omega
    · subst hst
      cases isFirst with
      | true =>
        simp only [getAvailableActionsSimple, mkSimpleCfg] at ha
        simp only [Bool.not_false, Bool.and_true, if_true] at ha
        rw [List.mem_flatMap] at ha
        obtain ⟨d, hd, hp⟩ := ha
        obtain rfl := mem_pushIf hp
        have := mem_filter_lo hd
        omega
      | false =>
        simp only [getAvailableActionsSimple, mkSimpleCfg] at ha
        simp only [Bool.false_and, Bool.not_false, Bool.and_true,
          Bool.false_eq_true, if_false, beq_self_eq_true, if_true] at ha
        rw [List.mem_flatMap] at ha
        obtain ⟨d, hd, hp⟩ := ha
        obtain rfl := mem_pushIf hp
        have := mem_filter_lo hd
        omega
  · intro raw sb ms mxs oa dc cl state isFirst hcond a ha
    have hsb : ∀ d ∈ (mkBrothersCfg raw sb ms mxs oa false dc cl).simpleBlockDigits,
        1 ≤ d := fun d hd => simpleBlock_pos sb d hd
    have hbd : ∀ d ∈ (mkBrothersCfg raw sb ms mxs oa false dc cl).brothersDigits,
        1 ≤ d := fun d hd =>
      mem_filter_lo (show d ∈ raw.filter (fun n => 1 ≤ n && n ≤ 4) from hd)
    rcases hcond with hif | hst
    · subst hif
      unfold getAvailableActionsBrothers at ha
      rw [if_pos (by rfl)] at ha
      rcases List.mem_append.mp ha with h | h
      · obtain ⟨d, hd, rfl⟩ := mem_push_group h
        have := hsb _ hd
        omega
      · have := hbd a (mem_sig_group h)
        omega
    · subst hst
      cases isFirst with
      | true =>
        unfold getAvailableActionsBrothers at ha
        rw [if_pos (by rfl)] at ha
        rcases List.mem_append.mp ha with h | h
        · obtain ⟨d, hd, rfl⟩ := mem_push_group h
          have := hsb _ hd
          omega
        · have := hbd a (mem_sig_group h)
          omega
      | false =>
        unfold getAvailableActionsBrothers at ha
        rw [if_neg (by simp), if_pos (by rfl)] at ha
        rcases List.mem_append.mp ha with h | h
        · obtain ⟨d, hd, rfl⟩ := mem_push_group h
          have := hsb _ hd
          omega
        · have := hbd a (mem_sig_group h)
          omega
  · intro raw sb ms mxs oa dc cl state isFirst hcond a ha
    have hsb : ∀ d ∈ (mkFriendsCfg raw sb ms mxs oa false dc cl).simpleBlockDigits,
        1 ≤ d := fun d hd => simpleBlock_pos sb d hd
    have hfd : ∀ d ∈ (mkFriendsCfg raw sb ms mxs oa false dc cl).friendsDigits,
        1 ≤ d := fun d hd =>
      mem_filter_lo (show d ∈ raw.filter (fun n => 1 ≤ n && n ≤ 9) from hd)
    rcases hcond with hif | hst
    · subst hif
      unfold getAvailableActionsFriends at ha
      rw [if_pos (by rfl)] at ha
      rcases List.mem_append.mp ha with h | h
      · obtain ⟨d, hd, rfl⟩ := mem_push_group h
        have := hsb _ hd
        omega
      · have := hfd a (mem_sig_group h)
        omega
    · subst hst
      cases isFirst with
      | true =>
        unfold getAvailableActionsFriends at ha
        rw [if_pos (by rfl)] at ha
        rcases List.mem_append.mp ha with h | h
        · obtain ⟨d, hd, rfl⟩ := mem_push_group h
          have := hsb _ hd
          omega
        · have := hfd a (mem_sig_group h)
          omega
      | false =>
        unfold getAvailableActionsFriends at ha
        rw [if_neg (by simp), if_pos (by rfl)] at ha
        rcases List.mem_append.mp ha with h | h
        · obtain ⟨d, hd, rfl⟩ := mem_push_group h
          have := hsb _ hd
          omega
        · have := hfd a (mem_sig_group h)
          omega
  · intro raw sb ms mxs oa dc cl state isFirst hcond a ha
    have hsb : ∀ d ∈ (mkMixCfg raw sb ms mxs oa false dc cl).simpleBlockDigits,
        1 ≤ d := fun d hd => simpleBlock_pos sb d hd
    have hmd : ∀ d ∈ (mkMixCfg raw sb ms mxs oa false dc cl).mixDigits,
        6 ≤ d := fun d hd =>
      mem_filter_lo (show d ∈ raw.filter (fun n => 6 ≤ n && n ≤ 9) from hd)
    rcases hcond with hif | hst
    · subst hif
      unfold getAvailableActionsMix at ha
      rw [if_pos (by rfl)] at ha
      rcases List.mem_append.mp ha with h | h
      · obtain ⟨d, hd, rfl⟩ := mem_push_group h
        have := hsb _ hd
        omega
      · have := hmd a (mem_sig_group h)
        omega
    · subst hst
      cases isFirst with
      | true =>
        unfold getAvailableActionsMix at ha
        rw [if_pos (by rfl)] at ha
        rcases List.mem_append.mp ha with h | h
        · obtain ⟨d, hd, rfl⟩ := mem_push_group h
          have := hsb _ hd
          omega
        · have := hmd a (mem_sig_group h)
          omega
      | false =>
        unfold getAvailableActionsMix at ha
        rw [if_neg (by simp), if_pos (by rfl)] at ha
        rcases List.mem_append.mp ha with h | h
        · obtain ⟨d, hd, rfl⟩ := mem_push_group h
          have := hsb _ hd
          omega
        · have := hmd a (mem_sig_group h)
          omega

/-- Witness for C6: `BrothersRule` at state 0 with `onlySubtraction`
off does offer the action 1, and the theorem certifies it non-negative. -/
theorem C6_witness :
    1 ∈ getAvailableActionsBrothers
      (mkBrothersCfg [4] none 3 7 false false 1 false) 0 false ∧
    (0 : Int) ≤ 1 :=
  ⟨by decide,
   C6_amended_nonnegative_actions.2.1 [4] none 3 7 false 1 false 0 false
     (Or.inr rfl) 1 (by decide)⟩

/-- C6 fails as stated: with `onlySubtraction = true` the `isFirst` guard
is skipped, and a first action from a nonzero state offers negative
actions (here `UnifiedSimpleRule`, state 5, `isFirst = true`). -/
theorem C6_counterexample :
    getAvailableActionsSimple
      (mkSimpleCfg [1, 2, 3, 4, 5] false 3 7 false true 1 false) 5 true =
      [-1, -2, -3, -4, -5] ∧
    ((-1 : Int) < 0) := by
  constructor
  · decide
  · decide

/-! ## C2: signature-step guarantee -/

/-- A `MixRule` instance with digit 6 run through the generator (the core
dispatcher uses exactly this configuration shape with `digitCount: 1`). -/
def c2MixCfg : MixCfg := mkMixCfg [6] none 3 3 false false 1 false

/-- The `Rule` view of `c2MixCfg`. -/
def c2MixRule : Rule := mixRule c2MixCfg

/-- One concrete assignment of the attempt randomness. -/
def c2Input : AttemptInput := ⟨0, fun _ _ => 0⟩

/-- C2 fails as stated: running the generator on this `MixRule` with its
full 100-attempt budget returns the hard-coded fallback Example — every
attempt fails validation — and no step of the fallback is classified as a
mix (signature) transition, so the generator does return an Example with
no signature step. -/
theorem C2_counterexample :
    generateRun c2MixRule (List.replicate 100 c2Input) = fallbackExample ∧
    (List.replicate 100 c2Input).length = maxAttemptsFor c2MixRule ∧
    fallbackExample.steps.all
      (fun st => !isMixTransition c2MixCfg st.fromState st.toState) = true := by
  refine ⟨?_, by rfl, by decide⟩
  exact generateRun_eq_fallback c2MixRule _
    (fun inp _ => attemptOutcome_none_of_validate_false c2MixRule inp
      (fun ex => validateMix_false [6] none 3 3 false false 1 false ex))

/-- C2 (amended): for the Brothers, Friends and Mix rules, every Example
the generator returns OTHER THAN the hard-coded fallback contains at least
one signature step (the validator guarantees it); the fallback itself
carries no such guarantee. -/
theorem C2_amended_signature_presence :
    (∀ (raw : List Int) (sb : Option (List Int)) (ms mxs : Nat) (oa os : Bool)
       (dc : Nat) (cl : Bool) (inputs : List AttemptInput) (e : Example),
       generateRun (brothersRule (mkBrothersCfg raw sb ms mxs oa os dc cl))
         inputs = e →
       e = fallbackExample ∨
         hasSigStep (isBrotherTransition (mkBrothersCfg raw sb ms mxs oa os dc cl))
           e.start e.steps = true) ∧
    (∀ (raw : List Int) (sb : Option (List Int)) (ms mxs : Nat) (oa os : Bool)
       (dc : Nat) (cl : Bool) (inputs : List AttemptInput) (e : Example),
       generateRun (friendsRule (mkFriendsCfg raw sb ms mxs oa os dc cl))
         inputs = e →
       e = fallbackExample ∨
         hasSigStep (isFriendTransition (mkFriendsCfg raw sb ms mxs oa os dc cl))
           e.start e.steps = true) ∧
    (∀ (raw : List Int) (sb : Option (List Int)) (ms mxs : Nat) (oa os : Bool)
       (dc : Nat) (cl : Bool) (inputs : List AttemptInput) (e : Example),
       generateRun (mixRule (mkMixCfg raw sb ms mxs oa os dc cl))
         inputs = e →
       e = fallbackExample ∨
         hasSigStep (isMixTransition (mkMixCfg raw sb ms mxs oa os dc cl))
           e.start e.steps = true) := by
  refine ⟨?_, ?_, ?_⟩
  · intro raw sb ms mxs oa os dc cl inputs e h
    rcases generateRun_cases _ inputs e h with hfb | ⟨inp, hout⟩
    · exact Or.inl hfb
    · right
      have hv := attemptOutcome_validate _ inp e hout
      exact (validateBrothers_proj _ e hv).1
  · intro raw sb ms mxs oa os dc cl inputs e h
    rcases generateRun_cases _ inputs e h with hfb | ⟨inp, hout⟩
    · exact Or.inl hfb
    · right
      have hv := attemptOutcome_validate _ inp e hout
      exact (validateFriends_proj _ e hv).1
  · intro raw sb ms mxs oa os dc cl inputs e h
    rcases generateRun_cases _ inputs e h with hfb | ⟨inp, hout⟩
    · exact Or.inl hfb
    · right
      have hv := attemptOutcome_validate _ inp e hout
      exact (validateMix_proj _ e hv).1

/-- Witness for C2 at a concrete brothers run (empty input list exhausts
immediately, hitting the fallback disjunct). -/
theorem C2_witness :
    fallbackExample = fallbackExample ∨
      hasSigStep (isBrotherTransition (mkBrothersCfg [4] none 3 7 false false 1 false))
        fallbackExample.start fallbackExample.steps = true :=
  C2_amended_signature_presence.1 [4] none 3 7 false false 1 false []
    fallbackExample rfl

/-! ## C3: budget exhaustion behaviour -/

/-- A `MixRule` instance whose validator rejects everything, so every
budget is necessarily exhausted. -/
def c3MixCfg : MixCfg := mkMixCfg [6] none 3 3 false false 1 false

/-- The `MultiDigitGenerator` the core dispatcher builds over `c3MixCfg`
for a 2-digit request. -/
def c3Mdg : MDG :=
  mkMDG 2 false c3MixCfg.selectedDigits c3MixCfg.onlyAddition
    c3MixCfg.onlySubtraction c3MixCfg.minSteps c3MixCfg.maxSteps
    (validateMix c3MixCfg)

/-- One concrete assignment of the multi-digit randomness. -/
def c3Oracle : MDGOracle := ⟨0, fun _ _ => 0, fun _ _ => false, true⟩

/-- C3 fails as stated: `MultiDigitGenerator.generateExample` with its full
500-attempt budget exhausted does NOT return a fallback Example — it
throws (modelled by `none`), and `ExampleGenerator.generate` forwards that
call outside its `try`, so the error reaches the caller. -/
theorem C3_counterexample :
    mdgGenerateRun c3Mdg (mdgStepsCount c3Mdg 0)
      (List.replicate 500 (fun _ => c3Oracle)) = none :=
  mdgGenerateRun_none c3Mdg _ _
    (fun orcs _ => mdgAttemptOutcome_none_of_validate_false c3Mdg _ orcs
      (fun ex => validateMix_false [6] none 3 3 false false 1 false ex))

/-- C3 (amended): when every attempt of the budget fails, single-column
generation (`ExampleGenerator.generate`) returns the fixed hard-coded
fallback Example and raises nothing, while multi-digit generation
(`MultiDigitGenerator.generateExample`) instead throws an error. -/
theorem C3_amended_exhaustion_behavior :
    (∀ (r : Rule) (inputs : List AttemptInput),
       (∀ inp ∈ inputs, attemptOutcome r inp = none) →
       generateRun r inputs = fallbackExample) ∧
    (∀ (m : MDG) (sc : Nat) (l : List (Nat → MDGOracle)),
       (∀ orcs ∈ l, mdgAttemptOutcome m sc orcs = none) →
       mdgGenerateRun m sc l = none) :=
  ⟨generateRun_eq_fallback, mdgGenerateRun_none⟩

/-- Witness for C3 at concrete all-failing runs (a `MixRule` with digit 7
fails every attempt). -/
theorem C3_witness :
    generateRun (mixRule (mkMixCfg [7] none 2 2 false false 1 false))
      (List.replicate 100 (⟨0, fun _ _ => 0⟩ : AttemptInput)) =
      fallbackExample ∧
    mdgGenerateRun
      (mkMDG 2 false [7] false false 2 2
        (validateMix (mkMixCfg [7] none 2 2 false false 1 false)))
      2 (List.replicate 500
        (fun _ => (⟨0, fun _ _ => 0, fun _ _ => false, true⟩ : MDGOracle))) =
      none :=
  ⟨C3_amended_exhaustion_behavior.1 _ _
    (fun inp _ => attemptOutcome_none_of_validate_false _ inp
      (fun ex => validateMix_false [7] none 2 2 false false 1 false ex)),
   C3_amended_exhaustion_behavior.2 _ _ _
    (fun orcs _ => mdgAttemptOutcome_none_of_validate_false _ _ orcs
      (fun ex => validateMix_false [7] none 2 2 false false 1 false ex))⟩

/-! ## C1: the answer identity -/

/-- A `FriendsRule` instance with `digitCount = 2` and lock-step columns
(`combineLevels = true`), exactly the fields the `FriendsRule` constructor
stores (its own default for `digitCount` is already 2). -/
def c1FriendsCfg : FriendsCfg := mkFriendsCfg [9] none 2 2 false false 2 true

/-- The `Rule` view of `c1FriendsCfg`. -/
def c1FriendsRule : Rule := friendsRule c1FriendsCfg

/-- Random draws: first step picks `+5`, second picks `+9` (a friend
transition from 5 to 14 per column). -/
def c1Input : AttemptInput := ⟨0, fun i _ => if i == 0 then 4 else 5⟩

/-- The Example the lock-step vector path then returns: composite
`fromState`/`toState` values but per-column actions, accepted by
`FriendsRule.validateExample` (which never re-checks the answer). -/
def c1BadExample : Example :=
  ⟨0, [⟨5, 0, 55⟩, ⟨9, 55, 154⟩], 154⟩

/-- C1 fails as stated: `ExampleGenerator.generate` can return an Example
whose answer (154) differs from start plus the sum of its step actions
(14): in lock-step multi-column mode the recorded actions are per-column
deltas while the answer is the composite final state, and
`FriendsRule.validateExample` does not re-check the answer. -/
theorem C1_counterexample :
    GenReturns c1FriendsRule c1BadExample ∧
    c1BadExample.answer ≠ c1BadExample.start + sumActions c1BadExample.steps := by
  constructor
  · refine ⟨c1Input :: List.replicate 199 c1Input, by rfl, ?_⟩
    have h : attemptOutcome c1FriendsRule c1Input = some c1BadExample := by decide
    unfold generateRun
    rw [h]
  · decide

/-- C1 (amended): the answer identity
`answer = start + sum(step.action)` holds for every Example produced by
the single-digit attempt path, by truncation recomputation, by the
hard-coded fallback, by the independent-column vector path, and by the
`MultiDigitGenerator` attempt path — every generator path except the
lock-step vector mode exhibited in the counterexample. -/
theorem C1_amended_answer_identity :
    (∀ (r : Rule) (inp : AttemptInput) (e : Example),
       singleDigitAttempt r inp = some e →
       e.answer = e.start + sumActions e.steps) ∧
    (∀ (m : Nat) (ex : Example), m < ex.steps.length →
       (truncateToMax m ex).answer =
         (truncateToMax m ex).start + sumActions (truncateToMax m ex).steps) ∧
    (fallbackExample.answer =
      fallbackExample.start + sumActions fallbackExample.steps) ∧
    (∀ (r : Rule) (inp : AttemptInput) (e : Example),
       r.combineLevels = false → vectorAttempt r inp = some e →
       e.answer = e.start + sumActions e.steps) ∧
    (∀ (m : MDG) (sc : Nat) (orcs : Nat → MDGOracle) (e : Example),
       mdgAttempt m sc orcs = some e →
       e.answer = e.start + sumActions e.steps) :=
  ⟨singleDigitAttempt_answer, truncateToMax_answer_of_cut, by decide,
   vectorAttempt_answer, mdgAttempt_answer⟩

/-- Witness for C1 at concrete runs of each hypothesised path. -/
theorem C1_witness :
    ((⟨0, [⟨1, 0, 1⟩, ⟨1, 1, 2⟩, ⟨1, 2, 3⟩], 3⟩ : Example).answer =
      (⟨0, [⟨1, 0, 1⟩, ⟨1, 1, 2⟩, ⟨1, 2, 3⟩], 3⟩ : Example).start +
        sumActions (⟨0, [⟨1, 0, 1⟩, ⟨1, 1, 2⟩, ⟨1, 2, 3⟩], 3⟩ : Example).steps) ∧
    ((truncateToMax 1 ⟨0, [⟨1, 0, 1⟩, ⟨1, 1, 2⟩, ⟨1, 2, 3⟩], 3⟩).answer =
      (truncateToMax 1 ⟨0, [⟨1, 0, 1⟩, ⟨1, 1, 2⟩, ⟨1, 2, 3⟩], 3⟩).start +
        sumActions (truncateToMax 1 ⟨0, [⟨1, 0, 1⟩, ⟨1, 1, 2⟩, ⟨1, 2, 3⟩], 3⟩).steps) ∧
    ((⟨0, [⟨11, 0, 11⟩, ⟨11, 11, 22⟩, ⟨11, 22, 33⟩], 33⟩ : Example).answer =
      (⟨0, [⟨11, 0, 11⟩, ⟨11, 11, 22⟩, ⟨11, 22, 33⟩], 33⟩ : Example).start +
        sumActions (⟨0, [⟨11, 0, 11⟩, ⟨11, 11, 22⟩, ⟨11, 22, 33⟩], 33⟩ : Example).steps) ∧
    ((⟨0, [⟨11, 0, 11⟩, ⟨11, 11, 22⟩], 22⟩ : Example).answer =
      (⟨0, [⟨11, 0, 11⟩, ⟨11, 11, 22⟩], 22⟩ : Example).start +
        sumActions (⟨0, [⟨11, 0, 11⟩, ⟨11, 11, 22⟩], 22⟩ : Example).steps) :=
  ⟨C1_amended_answer_identity.1
      (simpleRule (mkSimpleCfg [1] false 3 3 false false 1 false))
      ⟨0, fun _ _ => 0⟩ _ (by decide),
   C1_amended_answer_identity.2.1 1 ⟨0, [⟨1, 0, 1⟩, ⟨1, 1, 2⟩, ⟨1, 2, 3⟩], 3⟩
      (by decide),
   C1_amended_answer_identity.2.2.2.1
      (simpleRule (mkSimpleCfg [1] false 3 3 false false 2 false))
      ⟨0, fun _ _ => 0⟩ _ (by decide) (by decide),
   C1_amended_answer_identity.2.2.2.2
      (mkMDG 2 false [1, 2] false false 2 2 (fun _ => true)) 2
      (fun _ => ⟨0, fun _ _ => 0, fun _ _ => false, true⟩) _ (by decide)⟩

/-! ## C5: running-sum bounds -/

/-- Lemma: `UnifiedSimpleRule` declares `maxState` 4 or 9. -/
theorem mkSimpleCfg_maxState (raw : List Int) (inc : Bool) (ms mxs : Nat)
    (oa os : Bool) (dc : Nat) (cl : Bool) :
    (mkSimpleCfg raw inc ms mxs oa os dc cl).maxState = 4 ∨
    (mkSimpleCfg raw inc ms mxs oa os dc cl).maxState = 9 := by
  unfold mkSimpleCfg
  dsimp only
  split
  · right; rfl
  · left; rfl

/-- C5: for every Example the generator returns, every prefix running sum
stays within the rule's declared state bounds — `[0, maxState]`
(`maxState ∈ {4, 9}`) for single-column `UnifiedSimpleRule`, `[0,9]` for
single-column `BrothersRule`, `[0,99]` for `FriendsRule` and `MixRule`
(any digit count, including through `MultiDigitGenerator`). -/
theorem C5_running_sum_bounds :
    (∀ (raw : List Int) (inc : Bool) (ms mxs : Nat) (oa os : Bool) (cl : Bool)
       (inputs : List AttemptInput) (e : Example),
       generateRun (simpleRule (mkSimpleCfg raw inc ms mxs oa os 1 cl))
         inputs = e →
       ∀ k : Nat, 0 ≤ e.start + sumActions (e.steps.take k) ∧
         e.start + sumActions (e.steps.take k) ≤
           (mkSimpleCfg raw inc ms mxs oa os 1 cl).maxState) ∧
    (∀ (raw : List Int) (sb : Option (List Int)) (ms mxs : Nat) (oa os : Bool)
       (cl : Bool) (inputs : List AttemptInput) (e : Example),
       generateRun (brothersRule (mkBrothersCfg raw sb ms mxs oa os 1 cl))
         inputs = e →
       ∀ k : Nat, 0 ≤ e.start + sumActions (e.steps.take k) ∧
         e.start + sumActions (e.steps.take k) ≤ 9) ∧
    (∀ (raw : List Int) (sb : Option (List Int)) (ms mxs : Nat) (oa os : Bool)
       (dc : Nat) (cl : Bool) (inputs : List AttemptInput) (e : Example),
       generateRun (friendsRule (mkFriendsCfg raw sb ms mxs oa os dc cl))
         inputs = e →
       ∀ k : Nat, 0 ≤ e.start + sumActions (e.steps.take k) ∧
         e.start + sumActions (e.steps.take k) ≤ 99) ∧
    (∀ (raw : List Int) (sb : Option (List Int)) (ms mxs : Nat) (oa os : Bool)
       (dc : Nat) (cl : Bool) (inputs : List AttemptInput) (e : Example),
       generateRun (mixRule (mkMixCfg raw sb ms mxs oa os dc cl))
         inputs = e →
       ∀ k : Nat, 0 ≤ e.start + sumActions (e.steps.take k) ∧
         e.start + sumActions (e.steps.take k) ≤ 99) ∧
    (∀ (cfg : FriendsCfg) (m : MDG), m.validate = validateFriends cfg →
       ∀ (sc : Nat) (l : List (Nat → MDGOracle)) (e : Example),
         mdgGenerateRun m sc l = some e →
         ∀ k : Nat, 0 ≤ e.start + sumActions (e.steps.take k) ∧
           e.start + sumActions (e.steps.take k) ≤ 99) := by
  refine ⟨?_, ?_, ?_, ?_, ?_⟩
  · intro raw inc ms mxs oa os cl inputs e h k
    rcases mkSimpleCfg_maxState raw inc ms mxs oa os 1 cl with hms | hms
    all_goals {
      rcases generateRun_cases _ inputs e h with hfb | ⟨inp, hout⟩
      · subst hfb
        have hb := statesWithin_bounds 0 4 fallbackExample.steps 0
          (by decide) (by decide) (by decide) k
        have h1 := hb.1
        have h2 := hb.2
        constructor
        · simpa [fallbackExample] using h1
        · rw [hms]
          have : fallbackExample.start = 0 := rfl
          rw [this]
          omega
      · have hv := attemptOutcome_validate _ inp e hout
        have hst := attemptOutcome_start _ inp e hout
        have hsw := validateSimple_proj _ e rfl hv
        have hb := statesWithin_bounds _ _ e.steps e.start hsw
          (by rw [hst]; exact le_refl 0) (by rw [hst, hms]; omega) k
        rw [hms] at hb ⊢
        exact hb
    }
  · intro raw sb ms mxs oa os cl inputs e h k
    rcases generateRun_cases _ inputs e h with hfb | ⟨inp, hout⟩
    · subst hfb
      have hb := statesWithin_bounds 0 9 fallbackExample.steps 0
        (by decide) (by decide) (by decide) k
      simpa [fallbackExample] using hb
    · have hv := attemptOutcome_validate _ inp e hout
      have hst := attemptOutcome_start _ inp e hout
      have hsw := (validateBrothers_proj _ e hv).2
      exact statesWithin_bounds 0 9 e.steps e.start hsw
        (by rw [hst]) (by rw [hst]; omega) k
  · intro raw sb ms mxs oa os dc cl inputs e h k
    rcases generateRun_cases _ inputs e h with hfb | ⟨inp, hout⟩
    · subst hfb
      have hb := statesWithin_bounds 0 99 fallbackExample.steps 0
        (by decide) (by decide) (by decide) k
      simpa [fallbackExample] using hb
    · have hv := attemptOutcome_validate _ inp e hout
      have hst := attemptOutcome_start _ inp e hout
      have hsw := (validateFriends_proj _ e hv).2
      exact statesWithin_bounds 0 99 e.steps e.start hsw
        (by rw [hst]) (by rw [hst]; omega) k
  · intro raw sb ms mxs oa os dc cl inputs e h k
    rcases generateRun_cases _ inputs e h with hfb | ⟨inp, hout⟩
    · subst hfb
      have hb := statesWithin_bounds 0 99 fallbackExample.steps 0
        (by decide) (by decide) (by decide) k
      simpa [fallbackExample] using hb
    · have hv := attemptOutcome_validate _ inp e hout
      have hst := attemptOutcome_start _ inp e hout
      have hsw := (validateMix_proj _ e hv).2
      exact statesWithin_bounds 0 99 e.steps e.start hsw
        (by rw [hst]) (by rw [hst]; omega) k
  · intro cfg m hval sc l e h k
    obtain ⟨orcs, hout⟩ := mdgGenerateRun_cases m sc l e h
    have hv := mdgAttemptOutcome_validate m sc orcs e hout
    rw [hval] at hv
    have hst := mdgAttempt_start m sc orcs e
      (mdgAttemptOutcome_eq_attempt m sc orcs e hout)
    have hsw := (validateFriends_proj _ e hv).2
    exact statesWithin_bounds 0 99 e.steps e.start hsw
      (by rw [hst]) (by rw [hst]; omega) k

/-- Witness for C5: the simple-rule conjunct at the exhausted-budget run
(the fallback), prefix length 2. -/
theorem C5_witness :
    0 ≤ fallbackExample.start + sumActions (fallbackExample.steps.take 2) ∧
    fallbackExample.start + sumActions (fallbackExample.steps.take 2) ≤
      (mkSimpleCfg [1, 2, 3, 4] false 3 7 false false 1 false).maxState :=
  C5_running_sum_bounds.1 [1, 2, 3, 4] false 3 7 false false false []
    fallbackExample rfl 2

/-! ## C9: PrintGenerator precondition errors -/

/-- The spec's list of precondition violations, read over a (post-default)
configuration: `examplesCount` outside `[1,1000]`, `actionsCount` outside
`[1,20]`, `digitCount` outside `[1,9]`, no block with selected digits, or
the friends/mix block selected with `digitCount < 2`.  (Written from the
spec sentence, for comparison with the code's `validate`.) -/
def configViolatesSpecB (c : PrintConfig) : Bool :=
  !(1 ≤ c.examplesCount && c.examplesCount ≤ 1000) ||
  !(1 ≤ c.actionsCount && c.actionsCount ≤ 20) ||
  !(1 ≤ c.digitCount && c.digitCount ≤ 9) ||
  !hasActiveBlock c.blocks ||
  ((blockActive c.blocks.friends || blockActive c.blocks.mix) &&
    c.digitCount < 2)

/-- The code's `validate` raises exactly on the spec's violation list (over
the stored, post-default configuration). -/
theorem printValidateError_isSome (c : PrintConfig) :
    (printValidateError c).isSome = configViolatesSpecB c := by
  unfold printValidateError configViolatesSpecB
  split_ifs with h1 h2 h3 h4 h5 h6 <;>
    cases hbf : blockActive c.blocks.friends <;>
    cases hbm : blockActive c.blocks.mix <;>
    simp_all

/-- C9 fails as stated: a caller-supplied `examplesCount` of 0 violates the
stated precondition `examplesCount ∈ [1,1000]`, yet `generate` raises no
error — the constructor's `||`-defaulting silently replaces 0 by 20
before `validate` runs. -/
theorem C9_counterexample :
    exceptIsOk (printGenerate
      ⟨0, 5, 1, ⟨some ⟨[1], false, false⟩, none, none, none⟩, false⟩
      (fun _ _ => ⟨[], 0, []⟩)) = true ∧
    ¬(1 ≤ (⟨0, 5, 1, ⟨some ⟨[1], false, false⟩, none, none, none⟩, false⟩ :
        PrintConfigInput).examplesCount ∧
      (⟨0, 5, 1, ⟨some ⟨[1], false, false⟩, none, none, none⟩, false⟩ :
        PrintConfigInput).examplesCount ≤ 1000) := by
  constructor
  · rfl
  · decide

/-- C9 (amended): `PrintGenerator.generate` raises an error to the caller,
before any generation attempt, exactly when the EFFECTIVE configuration —
after the constructor's `||`-defaulting, which silently replaces a supplied
0 by the defaults 20/5/1 — violates one of the stated preconditions; the
error is never recovered locally. -/
theorem C9_amended_error_iff_effective_violation :
    ∀ (cin : PrintConfigInput) (rands : Nat → Nat → CoreRand),
      exceptIsOk (printGenerate cin rands) = false ↔
        configViolatesSpecB (mkPrintConfig cin) = true := by
  intro cin rands
  unfold printGenerate
  rw [← printValidateError_isSome (mkPrintConfig cin)]
  cases hv : printValidateError (mkPrintConfig cin) with
  | some msg => simp [exceptIsOk, hv]
  | none => simp [exceptIsOk, hv]

end Abacus
